import Mathlib

/-!
Verification of the prompt-crit backend (supabase/functions/make-server-5742cd96/index.ts).

The server is shallowly embedded: each route handler becomes a pure Lean
function from an explicit key-value store (plus the authenticated caller and
the request body) to a typed result and a new store.  Nondeterministic inputs
of the handlers (crypto.randomUUID, Date.now) are passed as parameters.
JavaScript string operations used by the handlers (trim, toLowerCase, slice,
includes, replace-with-string-pattern, and the two regexes) are embedded as
executable functions over character lists.
-/

namespace PromptCrit

/-- Embeds JavaScript String.prototype.trim: strip leading and trailing
whitespace. -/
def jsTrim (s : String) : String :=
  String.mk (((s.toList.dropWhile Char.isWhitespace).reverse.dropWhile Char.isWhitespace).reverse)

/-- Embeds JavaScript String.prototype.toLowerCase (ASCII range, which covers
every string the handlers compare). -/
def jsToLower (s : String) : String :=
  String.mk (s.toList.map Char.toLower)

/-- index.ts sanitizeString: str.trim().slice(0, 10000). -/
def sanitizeString (s : String) : String :=
  String.mk ((jsTrim s).toList.take 10000)

/-- A character admitted by the regex character class [^\s@]. -/
def isEmailChar (c : Char) : Bool :=
  !c.isWhitespace && c != '@'

/-- Embeds EMAIL_REGEX = ^[^\s@]+@[^\s@]+\.[^\s@]+$ from index.ts.  A string
matches iff some position i holds the (unique) @ with at least one admitted
character before it, every other character is admitted (not whitespace, not @),
and some position j at least two places after i and at least one place before
the end holds a dot; this is exactly the set of strings the regex accepts. -/
def emailRegexMatch (s : String) : Bool :=
  let cs := s.toList
  let n := cs.length
  (List.range n).any fun i =>
    (cs.getD i ' ' == '@') && decide (1 ≤ i) &&
    ((List.range n).all fun k => (k == i) || isEmailChar (cs.getD k ' ')) &&
    ((List.range n).any fun j =>
      decide (i + 2 ≤ j) && decide (j + 2 ≤ n) && (cs.getD j ' ' == '.'))

/-- Embeds UUID_REGEX (case-insensitive): 8-4-4-4-12 hex digits separated by
dashes. -/
def isHexDigitChar (c : Char) : Bool :=
  c.isDigit || ('a' ≤ c && c ≤ 'f') || ('A' ≤ c && c ≤ 'F')

/-- index.ts validateUUID. -/
def validateUUID (s : String) : Bool :=
  let cs := s.toList
  (cs.length == 36) &&
  ((List.range 36).all fun i =>
    if i == 8 || i == 13 || i == 18 || i == 23 then cs.getD i ' ' == '-'
    else isHexDigitChar (cs.getD i ' '))

/-- index.ts validateEmail on a value already known to be a string. -/
def validateEmailStr (s : String) : Bool :=
  emailRegexMatch s && decide (s.length ≤ 254)

/-- index.ts validateName on a value already known to be a string. -/
def validateNameStr (s : String) : Bool :=
  decide (1 ≤ (jsTrim s).length) && decide (s.length ≤ 100)

/-- index.ts validateSessionName on a value already known to be a string. -/
def validateSessionNameStr (s : String) : Bool :=
  decide (1 ≤ (jsTrim s).length) && decide (s.length ≤ 200)

/-- A JSON value appearing in a request body.  Array elements and object
fields are carried so that Object.entries and Array.isArray translate
faithfully. -/
inductive JValue where
  | jundef : JValue
  | jnull : JValue
  | jbool (b : Bool) : JValue
  | jnum (n : Int) : JValue
  | jstr (s : String) : JValue
  | jarr (elems : List JValue) : JValue
  | jobj (fields : List (String × JValue)) : JValue

/-- JavaScript truthiness of a JSON value (NaN does not arise here). -/
def jsTruthy : JValue → Bool
  | .jundef => false
  | .jnull => false
  | .jbool b => b
  | .jnum n => n != 0
  | .jstr s => s.length != 0
  | .jarr _ => true
  | .jobj _ => true

/-- JavaScript strict equality with the literal boolean true: v === true. -/
def jsStrictEqTrue : JValue → Bool
  | .jbool true => true
  | _ => false

/-- JavaScript strict equality with a string literal: v === lit. -/
def isStrVal (v : JValue) (lit : String) : Bool :=
  match v with
  | .jstr s => s == lit
  | _ => false

/-- typeof v is the string object (true for null, arrays and objects). -/
def jsTypeofObject : JValue → Bool
  | .jnull => true
  | .jarr _ => true
  | .jobj _ => true
  | _ => false

/-- A roster entry: email plus display name.  Submitted entries carry the same
two fields; index.ts validateStudentArray additionally demands that both
fields are strings, which the typed embedding builds in. -/
structure Student where
  email : String
  name : String
deriving DecidableEq

/-- index.ts validateStudentArray.  none models a missing or non-array
students field. -/
def validateStudentArray (students : Option (List Student)) : Bool :=
  match students with
  | none => false
  | some l =>
    decide (l.length ≤ 500) &&
    l.all fun s => validateEmailStr s.email && validateNameStr s.name

/-- Roster normalization applied before storage:
email.toLowerCase().trim(), sanitizeString(name). -/
def normStudent (s : Student) : Student :=
  { email := jsTrim (jsToLower s.email), name := sanitizeString s.name }

/-- The session record stored under session:id.  Transition timestamps are
absent until the corresponding transition runs. -/
structure Session where
  id : String
  organizerId : String
  organizerEmail : String
  name : String
  status : String
  students : List Student
  createdAt : String
  startedAt : Option String := none
  advancedAt : Option String := none
  completedAt : Option String := none
  archivedAt : Option String := none
  reopenedAt : Option String := none
deriving DecidableEq

/-- The reflection record stored under reflection:sessionId:email. -/
structure Reflection where
  sessionId : String
  studentEmail : String
  responses : List (String × String)
  screenshots : List JValue
  completed : Bool
  updatedAt : String

/-- The feedback record stored under feedback:sessionId:author:recipient. -/
structure Feedback where
  sessionId : String
  fromStudent : String
  toStudent : String
  critiques : String
  questions : String
  createdAt : String
deriving DecidableEq

/-- The user record stored under user:email at signup. -/
structure UserRec where
  email : String
  name : String
  role : String
  userId : String
deriving DecidableEq

/-- A value stored in the key-value table (the JSONB column). -/
inductive KVValue where
  | vSession (s : Session) : KVValue
  | vReflection (r : Reflection) : KVValue
  | vFeedback (f : Feedback) : KVValue
  | vUser (u : UserRec) : KVValue

/-- Modelled from the spec: the Record Store (kv_store.ts is imported by the
server but absent from the sources; spec section 2 gives its contract as point
get/set by exact key plus scan-by-prefix, and the migration creates a table
with a TEXT PRIMARY KEY, so set is an atomic single-key upsert).  The store is
an association list of key-value entries; set replaces the entry of an
existing key in place and otherwise appends. -/
structure KVStore where
  entries : List (String × KVValue)

def kvEmpty : KVStore := ⟨[]⟩

/-- Point lookup by exact key. -/
def kvGet (st : KVStore) (k : String) : Option KVValue :=
  (st.entries.find? (fun e => e.1 == k)).map (fun e => e.2)

/-- Upsert on the entry list: replace the entry of an existing key in place,
otherwise append. -/
def upsertEntries (l : List (String × KVValue)) (k : String) (v : KVValue) :
    List (String × KVValue) :=
  if l.any (fun e => e.1 == k) then
    l.map (fun e => if e.1 == k then (k, v) else e)
  else
    l ++ [(k, v)]

/-- Single-key upsert. -/
def kvSet (st : KVStore) (k : String) (v : KVValue) : KVStore :=
  ⟨upsertEntries st.entries k v⟩

/-- Scan-by-prefix: values of every entry whose key starts with the given
string, in table order (SQL LIKE prefix% on the TEXT key). -/
def kvGetByPrefix (st : KVStore) (p : String) : List KVValue :=
  (st.entries.filter (fun e => p.toList.isPrefixOf e.1.toList)).map (fun e => e.2)

def sessionKey (sid : String) : String := "session:" ++ sid

def reflectionKey (sid email : String) : String :=
  "reflection:" ++ sid ++ ":" ++ email

def feedbackKey (sid author recipient : String) : String :=
  "feedback:" ++ sid ++ ":" ++ author ++ ":" ++ recipient

/-- The session record stored under session:sid, if any.  Session keys only
ever hold session values, so any other shape reads as absent. -/
def getSession? (st : KVStore) (sid : String) : Option Session :=
  match kvGet st (sessionKey sid) with
  | some (.vSession s) => some s
  | _ => none

/-- The authenticated caller resolved from the bearer token: supabase user id
and email, plus the role declared at signup (carried so that theorems can
speak about it; the handlers read it or ignore it exactly as index.ts does). -/
structure Identity where
  id : String
  email : String
  role : String
deriving DecidableEq

/-- Spec section 7 error taxonomy; every handler failure carries one kind plus
the human-readable message from index.ts. -/
inductive ErrKind where
  | unauthenticated : ErrKind
  | forbidden : ErrKind
  | invalidArgument : ErrKind
  | notFound : ErrKind
  | invalidTransition : ErrKind
  | upstreamUnavailable : ErrKind
deriving DecidableEq

structure ApiError where
  kind : ErrKind
  msg : String
deriving DecidableEq

/-- session.students?.some(s => s.email === email): exact string comparison
against the stored roster. -/
def isEnrolled (sess : Session) (email : String) : Bool :=
  sess.students.any fun s => s.email == email

/-- POST /session (index.ts lines 277-323).  caller = none models a missing or
rejected bearer token; newId is the value of crypto.randomUUID() and now the
request timestamp.  The handler checks authentication and the session name and
nothing else; in particular it never reads the caller role. -/
def createSession (st : KVStore) (caller : Option Identity) (nameArg : JValue)
    (newId now : String) : Except ApiError Session × KVStore :=
  match caller with
  | none => (.error ⟨.unauthenticated, "Missing authorization token"⟩, st)
  | some user =>
    match nameArg with
    | .jstr nm =>
      if validateSessionNameStr nm then
        let sess : Session :=
          { id := newId, organizerId := user.id, organizerEmail := user.email,
            name := sanitizeString nm, status := "setup", students := [],
            createdAt := now }
        (.ok sess, kvSet st (sessionKey newId) (.vSession sess))
      else
        (.error ⟨.invalidArgument, "Session name must be between 1 and 200 characters"⟩, st)
    | _ => (.error ⟨.invalidArgument, "Session name must be between 1 and 200 characters"⟩, st)

/-- POST /session/:id/roster (index.ts lines 355-408): full roster
replacement.  The students array is validated before the session is fetched;
on success the stored roster is the normalized submitted list, discarding the
previous roster entirely. -/
def replaceRoster (st : KVStore) (caller : Option Identity) (sid : String)
    (students : Option (List Student)) : Except ApiError Session × KVStore :=
  match caller with
  | none => (.error ⟨.unauthenticated, "Missing authorization token"⟩, st)
  | some user =>
    if !validateUUID sid then
      (.error ⟨.invalidArgument, "Invalid session ID format"⟩, st)
    else if !validateStudentArray students then
      (.error ⟨.invalidArgument, "Invalid students array. Each student must have valid email and name."⟩, st)
    else
      match getSession? st sid with
      | none => (.error ⟨.notFound, "Session not found"⟩, st)
      | some sess =>
        if sess.organizerId != user.id then
          (.error ⟨.forbidden, "Forbidden"⟩, st)
        else
          let sess2 := { sess with students := (students.getD []).map normStudent }
          (.ok sess2, kvSet st (sessionKey sid) (.vSession sess2))

/-- POST /session/:id/start (index.ts lines 411-452). -/
def startSession (st : KVStore) (caller : Option Identity) (sid now : String) :
    Except ApiError Session × KVStore :=
  match caller with
  | none => (.error ⟨.unauthenticated, "Missing authorization token"⟩, st)
  | some user =>
    if !validateUUID sid then
      (.error ⟨.invalidArgument, "Invalid session ID format"⟩, st)
    else
      match getSession? st sid with
      | none => (.error ⟨.notFound, "Session not found"⟩, st)
      | some sess =>
        if sess.organizerId != user.id then
          (.error ⟨.forbidden, "Forbidden"⟩, st)
        else if sess.status != "setup" then
          (.error ⟨.invalidTransition, "Session must be in setup phase to start"⟩, st)
        else
          let sess2 := { sess with status := "reflection", startedAt := some now }
          (.ok sess2, kvSet st (sessionKey sid) (.vSession sess2))

/-- POST /session/:id/advance (index.ts lines 455-496). -/
def advanceSession (st : KVStore) (caller : Option Identity) (sid now : String) :
    Except ApiError Session × KVStore :=
  match caller with
  | none => (.error ⟨.unauthenticated, "Missing authorization token"⟩, st)
  | some user =>
    if !validateUUID sid then
      (.error ⟨.invalidArgument, "Invalid session ID format"⟩, st)
    else
      match getSession? st sid with
      | none => (.error ⟨.notFound, "Session not found"⟩, st)
      | some sess =>
        if sess.organizerId != user.id then
          (.error ⟨.forbidden, "Forbidden"⟩, st)
        else if sess.status != "reflection" then
          (.error ⟨.invalidTransition, "Session must be in reflection phase to advance"⟩, st)
        else
          let sess2 := { sess with status := "critique", advancedAt := some now }
          (.ok sess2, kvSet st (sessionKey sid) (.vSession sess2))

/-- POST /session/:id/complete (index.ts lines 499-540). -/
def completeSession (st : KVStore) (caller : Option Identity) (sid now : String) :
    Except ApiError Session × KVStore :=
  match caller with
  | none => (.error ⟨.unauthenticated, "Missing authorization token"⟩, st)
  | some user =>
    if !validateUUID sid then
      (.error ⟨.invalidArgument, "Invalid session ID format"⟩, st)
    else
      match getSession? st sid with
      | none => (.error ⟨.notFound, "Session not found"⟩, st)
      | some sess =>
        if sess.organizerId != user.id then
          (.error ⟨.forbidden, "Forbidden"⟩, st)
        else if sess.status != "critique" then
          (.error ⟨.invalidTransition, "Session must be in critique phase to complete"⟩, st)
        else
          let sess2 := { sess with status := "complete", completedAt := some now }
          (.ok sess2, kvSet st (sessionKey sid) (.vSession sess2))

/-- POST /session/:id/reopen (index.ts lines 543-598).  The phase field of the
body is validated before the session is fetched; a falsy phase passes
validation and, like any phase other than the string reflection, reopens into
critique. -/
def reopenSession (st : KVStore) (caller : Option Identity) (sid : String)
    (phase : JValue) (now : String) : Except ApiError Session × KVStore :=
  match caller with
  | none => (.error ⟨.unauthenticated, "Missing authorization token"⟩, st)
  | some user =>
    if !validateUUID sid then
      (.error ⟨.invalidArgument, "Invalid session ID format"⟩, st)
    else if jsTruthy phase && !isStrVal phase "reflection" && !isStrVal phase "critique" then
      (.error ⟨.invalidArgument, "Phase must be reflection or critique"⟩, st)
    else
      match getSession? st sid with
      | none => (.error ⟨.notFound, "Session not found"⟩, st)
      | some sess =>
        if sess.organizerId != user.id then
          (.error ⟨.forbidden, "Forbidden"⟩, st)
        else if sess.status != "complete" && sess.status != "archived" then
          (.error ⟨.invalidTransition, "Session must be complete or archived to reopen"⟩, st)
        else
          let sess2 := { sess with
            status := if isStrVal phase "reflection" then "reflection" else "critique",
            reopenedAt := some now }
          (.ok sess2, kvSet st (sessionKey sid) (.vSession sess2))

/-- POST /session/:id/archive (index.ts lines 601-638).  No status guard: any
session the owner names is archived. -/
def archiveSession (st : KVStore) (caller : Option Identity) (sid now : String) :
    Except ApiError Session × KVStore :=
  match caller with
  | none => (.error ⟨.unauthenticated, "Missing authorization token"⟩, st)
  | some user =>
    if !validateUUID sid then
      (.error ⟨.invalidArgument, "Invalid session ID format"⟩, st)
    else
      match getSession? st sid with
      | none => (.error ⟨.notFound, "Session not found"⟩, st)
      | some sess =>
        if sess.organizerId != user.id then
          (.error ⟨.forbidden, "Forbidden"⟩, st)
        else
          let sess2 := { sess with status := "archived", archivedAt := some now }
          (.ok sess2, kvSet st (sessionKey sid) (.vSession sess2))

/-- GET /session/:id (index.ts lines 641-678).  Read-only.  The roster check
compares s.email === user.email, without case folding. -/
def getSessionDetail (st : KVStore) (caller : Option Identity) (sid : String) :
    Except ApiError Session :=
  match caller with
  | none => .error ⟨.unauthenticated, "Missing authorization token"⟩
  | some user =>
    if !validateUUID sid then
      .error ⟨.invalidArgument, "Invalid session ID format"⟩
    else
      match getSession? st sid with
      | none => .error ⟨.notFound, "Session not found"⟩
      | some sess =>
        let isOrganizer := sess.organizerId == user.id
        let isStudent := isEnrolled sess user.email
        if !isOrganizer && !isStudent then
          .error ⟨.forbidden, "Forbidden"⟩
        else
          .ok sess

/-- The body of POST /reflection/:sessionId.  A field left out of the request
is jundef. -/
structure ReflectionBody where
  responses : JValue
  screenshots : JValue
  completed : JValue

/-- The responses guard of POST /reflection: truthy but not of object type
(index.ts lines 709-711). -/
def responsesBad (v : JValue) : Bool :=
  jsTruthy v && !jsTypeofObject v

/-- Array.isArray(v) && v.length <= 10. -/
def screenshotsArrayOk : JValue → Bool
  | .jarr elems => decide (elems.length ≤ 10)
  | _ => false

/-- The screenshots guard of POST /reflection: truthy but not an array of at
most 10 items (index.ts lines 714-716). -/
def screenshotsBad (v : JValue) : Bool :=
  jsTruthy v && !screenshotsArrayOk v

/-- Object.entries over the responses value, keeping only string-valued
fields and sanitizing them (index.ts lines 730-737).  A falsy responses value
contributes nothing; entries of an array are indexed by their position. -/
def sanitizeResponses : JValue → List (String × String)
  | .jobj fields =>
    fields.filterMap fun kv =>
      match kv.2 with
      | .jstr s => some (kv.1, sanitizeString s)
      | _ => none
  | .jarr elems =>
    (((List.range elems.length).map toString).zip elems).filterMap fun kv =>
      match kv.2 with
      | .jstr s => some (kv.1, sanitizeString s)
      | _ => none
  | _ => []

/-- The reflection record POST /reflection builds (index.ts lines 739-746):
completed is stored as the strict comparison completed === true; screenshots
default to the empty array when falsy. -/
def mkReflection (sid email : String) (body : ReflectionBody) (now : String) :
    Reflection :=
  { sessionId := sid, studentEmail := email,
    responses := sanitizeResponses body.responses,
    screenshots :=
      match body.screenshots with
      | .jarr elems => elems
      | _ => [],
    completed := jsStrictEqTrue body.completed,
    updatedAt := now }

/-- POST /reflection/:sessionId (index.ts lines 681-755).  Saves the caller's
own reflection after checking enrollment; completed is stored as the strict
comparison completed === true; screenshots default to the empty array. -/
def saveReflection (st : KVStore) (caller : Option Identity) (sid : String)
    (body : ReflectionBody) (now : String) : Except ApiError Reflection × KVStore :=
  match caller with
  | none => (.error ⟨.unauthenticated, "Missing authorization token"⟩, st)
  | some user =>
    if !validateUUID sid then
      (.error ⟨.invalidArgument, "Invalid session ID format"⟩, st)
    else if responsesBad body.responses then
      (.error ⟨.invalidArgument, "Responses must be an object"⟩, st)
    else if screenshotsBad body.screenshots then
      (.error ⟨.invalidArgument, "Screenshots must be an array with max 10 items"⟩, st)
    else
      match getSession? st sid with
      | none => (.error ⟨.notFound, "Session not found"⟩, st)
      | some sess =>
        if !isEnrolled sess user.email then
          (.error ⟨.forbidden, "Forbidden - not enrolled in session"⟩, st)
        else
          let refl := mkReflection sid user.email body now
          (.ok refl, kvSet st (reflectionKey sid user.email) (.vReflection refl))

/-- index.ts validateTextContent on an arbitrary body value. -/
def validateTextContent (v : JValue) (maxLength : Nat) : Bool :=
  match v with
  | .jstr s => decide (s.length ≤ maxLength)
  | _ => false

/-- The feedback record POST /feedback builds (index.ts lines 1011-1018):
recipient lowercased, both texts defaulted to the empty string when falsy and
sanitized. -/
def mkFeedback (sid authorEmail sTo : String) (critiques questions : JValue)
    (now : String) : Feedback :=
  { sessionId := sid, fromStudent := authorEmail, toStudent := jsToLower sTo,
    critiques :=
      match critiques with
      | .jstr s => sanitizeString s
      | _ => "",
    questions :=
      match questions with
      | .jstr s => sanitizeString s
      | _ => "",
    createdAt := now }

/-- POST /feedback/:sessionId (index.ts lines 943-1030).  Guard order:
recipient email shape, self-feedback, critiques and questions size, session
existence, caller enrollment, recipient enrollment; on success the record
overwrites the key feedback:sessionId:callerEmail:recipientLower. -/
def submitFeedback (st : KVStore) (caller : Option Identity) (sid : String)
    (toStudent critiques questions : JValue) (now : String) :
    Except ApiError Feedback × KVStore :=
  match caller with
  | none => (.error ⟨.unauthenticated, "Missing access token"⟩, st)
  | some user =>
    if !validateUUID sid then
      (.error ⟨.invalidArgument, "Invalid session ID format"⟩, st)
    else
      match toStudent with
      | .jstr sTo =>
        if !validateEmailStr sTo then
          (.error ⟨.invalidArgument, "Invalid toStudent email format"⟩, st)
        else if jsToLower sTo == jsToLower user.email then
          (.error ⟨.invalidArgument, "Cannot submit feedback to yourself"⟩, st)
        else if !validateTextContent critiques 5000 then
          (.error ⟨.invalidArgument, "Critiques must be under 5000 characters"⟩, st)
        else if !validateTextContent questions 2000 then
          (.error ⟨.invalidArgument, "Questions must be under 2000 characters"⟩, st)
        else
          match getSession? st sid with
          | none => (.error ⟨.notFound, "Session not found"⟩, st)
          | some sess =>
            if !isEnrolled sess user.email then
              (.error ⟨.forbidden, "Forbidden - not enrolled in session"⟩, st)
            else if !isEnrolled sess (jsToLower sTo) then
              (.error ⟨.invalidArgument, "Target student not found in session"⟩, st)
            else
              let fb := mkFeedback sid user.email sTo critiques questions now
              (.ok fb, kvSet st (feedbackKey sid user.email (jsToLower sTo)) (.vFeedback fb))
      | _ => (.error ⟨.invalidArgument, "Invalid toStudent email format"⟩, st)

/-- Reflection values found by the prefix scan for a session.  The code
consumes the scanned JSON directly as reflection records; in every state the
server builds, a key under reflection:sid: holds a reflection value. -/
def scanReflections (st : KVStore) (sid : String) : List Reflection :=
  (kvGetByPrefix st ("reflection:" ++ sid ++ ":")).filterMap fun v =>
    match v with
    | .vReflection r => some r
    | _ => none

/-- Feedback values found by the prefix scan for a session. -/
def scanFeedback (st : KVStore) (sid : String) : List Feedback :=
  (kvGetByPrefix st ("feedback:" ++ sid ++ ":")).filterMap fun v =>
    match v with
    | .vFeedback f => some f
    | _ => none

structure StudentProgress where
  email : String
  name : String
  reflectionComplete : Bool
  feedbackCount : Nat
deriving DecidableEq

structure Progress where
  totalStudents : Nat
  completedReflections : Nat
  feedbackSubmissions : Nat
  studentProgress : List StudentProgress
deriving DecidableEq

/-- The progress payload (index.ts lines 1119-1129): completedReflections
counts the scanned reflections with a truthy completed flag;
feedbackSubmissions is the length of the feedback scan; per-student
feedbackCount is the number of scanned feedback records whose fromStudent
equals the roster email (the code builds the same counts through a counting
map). -/
def mkProgress (st : KVStore) (sid : String) (sess : Session) : Progress :=
  let refls := scanReflections st sid
  let fbs := scanFeedback st sid
  { totalStudents := sess.students.length,
    completedReflections := (refls.filter fun r => r.completed).length,
    feedbackSubmissions := fbs.length,
    studentProgress := sess.students.map fun s =>
      { email := s.email, name := s.name,
        reflectionComplete :=
          refls.any fun r => r.studentEmail == s.email && r.completed,
        feedbackCount :=
          (fbs.filter fun f => f.fromStudent == s.email).length } }

/-- GET /session/:id/progress (index.ts lines 1080-1134).  Read-only and
owner-only. -/
def getProgress (st : KVStore) (caller : Option Identity) (sid : String) :
    Except ApiError Progress :=
  match caller with
  | none => .error ⟨.unauthenticated, "Missing authorization token"⟩
  | some user =>
    if !validateUUID sid then
      .error ⟨.invalidArgument, "Invalid session ID format"⟩
    else
      match getSession? st sid with
      | none => .error ⟨.notFound, "Session not found"⟩
      | some sess =>
        if sess.organizerId != user.id then
          .error ⟨.forbidden, "Forbidden"⟩
        else
          .ok (mkProgress st sid sess)

/-- The literal completion sentinel scanned for in the external reply
(index.ts line 1227). -/
def sentinelToken : String := "[REFLECTION_COMPLETE]"

/-- Embeds JavaScript String.prototype.includes: some suffix of the text
starts with the pattern. -/
def listIncludes (pat : List Char) : List Char → Bool
  | [] => pat.isPrefixOf ([] : List Char)
  | c :: rest => pat.isPrefixOf (c :: rest) || listIncludes pat rest

def jsIncludes (s pat : String) : Bool :=
  listIncludes pat.toList s.toList

/-- Embeds JavaScript String.prototype.replace with a string pattern: only
the first occurrence of the pattern is replaced. -/
def replaceFirstAux (pat sub : List Char) : List Char → List Char
  | [] => if pat.isPrefixOf ([] : List Char) then sub else []
  | c :: rest =>
    if pat.isPrefixOf (c :: rest) then sub ++ (c :: rest).drop pat.length
    else c :: replaceFirstAux pat sub rest

def jsReplaceFirst (s pat sub : String) : String :=
  String.mk (replaceFirstAux pat.toList sub.toList s.toList)

/-- POST /ai-reflection, reply post-processing (index.ts lines 1225-1233).
replyText is the first content block of the external reply
(data.content means the blocks; a missing block reads as the empty string).
Returns the message handed back to the caller and the isComplete flag. -/
def processAiReply (replyText : Option String) : String × Bool :=
  let aiResponse := replyText.getD ""
  let isComplete := jsIncludes aiResponse sentinelToken
  let cleanResponse := jsTrim (jsReplaceFirst aiResponse sentinelToken "")
  (cleanResponse, isComplete)

/-- The transition actions of spec section 4.2 addressed by claim C1. -/
inductive TransitionAct where
  | tStart : TransitionAct
  | tAdvance : TransitionAct
  | tComplete : TransitionAct
  | tReopen (phase : JValue) : TransitionAct
  | tArchive : TransitionAct

/-- Dispatch a transition action to its handler. -/
def applyTransition (st : KVStore) (caller : Option Identity) (sid now : String) :
    TransitionAct → Except ApiError Session × KVStore
  | .tStart => startSession st caller sid now
  | .tAdvance => advanceSession st caller sid now
  | .tComplete => completeSession st caller sid now
  | .tReopen phase => reopenSession st caller sid phase now
  | .tArchive => archiveSession st caller sid now

/-- The reopen phase argument passes the body validation of the handler. -/
def transitionArgOk : TransitionAct → Bool
  | .tReopen phase =>
    !jsTruthy phase || isStrVal phase "reflection" || isStrVal phase "critique"
  | _ => true

/-- The source states the section 4.2 table admits for each action. -/
def validSource : TransitionAct → String → Bool
  | .tStart, s => s == "setup"
  | .tAdvance, s => s == "reflection"
  | .tComplete, s => s == "critique"
  | .tReopen _, s => s == "complete" || s == "archived"
  | .tArchive, _ => true

/-- The message each handler returns when the phase guard rejects (empty for
archive, whose guard never rejects). -/
def invalidTransitionMsg : TransitionAct → String
  | .tStart => "Session must be in setup phase to start"
  | .tAdvance => "Session must be in reflection phase to advance"
  | .tComplete => "Session must be in critique phase to complete"
  | .tReopen _ => "Session must be complete or archived to reopen"
  | .tArchive => ""

/-- A row of the section 4.2 transition table, written from the spec: the
pair of source and target states the table allows for an action. -/
def specTableRow (src : String) (act : TransitionAct) (tgt : String) : Prop :=
  match act with
  | .tStart => src = "setup" ∧ tgt = "reflection"
  | .tAdvance => src = "reflection" ∧ tgt = "critique"
  | .tComplete => src = "critique" ∧ tgt = "complete"
  | .tReopen _ => (src = "complete" ∨ src = "archived") ∧ (tgt = "reflection" ∨ tgt = "critique")
  | .tArchive => tgt = "archived"

/-- The defined session states (index.ts VALID_SESSION_STATUSES). -/
def VALID_SESSION_STATUSES : List String :=
  ["setup", "reflection", "critique", "complete", "archived"]

def validStatus (s : String) : Bool :=
  VALID_SESSION_STATUSES.contains s

/-- Every session record held in the store carries a defined status. -/
def StatusInv (st : KVStore) : Prop :=
  ∀ e ∈ st.entries, ∀ sess : Session, e.2 = KVValue.vSession sess →
    validStatus sess.status = true

/-- One mutating request against the server, with its nondeterministic inputs
fixed. -/
inductive Op where
  | opCreate (caller : Option Identity) (nameArg : JValue) (newId now : String) : Op
  | opRoster (caller : Option Identity) (sid : String) (students : Option (List Student)) : Op
  | opTransition (caller : Option Identity) (sid now : String) (act : TransitionAct) : Op
  | opReflect (caller : Option Identity) (sid : String) (body : ReflectionBody) (now : String) : Op
  | opFeedback (caller : Option Identity) (sid : String) (toStudent critiques questions : JValue) (now : String) : Op

/-- The store left behind by one mutating request. -/
def applyOp (st : KVStore) : Op → KVStore
  | .opCreate caller nameArg newId now => (createSession st caller nameArg newId now).2
  | .opRoster caller sid students => (replaceRoster st caller sid students).2
  | .opTransition caller sid now act => (applyTransition st caller sid now act).2
  | .opReflect caller sid body now => (saveReflection st caller sid body now).2
  | .opFeedback caller sid toStudent critiques questions now =>
    (submitFeedback st caller sid toStudent critiques questions now).2

/-- A stored entry is shaped the way the server writes it: its key is the
canonical key of its value and the session id baked into the key passed the
UUID check the writing handler performed. -/
def entryWF : String × KVValue → Bool
  | (k, .vSession s) => (k == sessionKey s.id) && validateUUID s.id
  | (k, .vReflection r) =>
    (k == reflectionKey r.sessionId r.studentEmail) && validateUUID r.sessionId
  | (k, .vFeedback f) =>
    (k == feedbackKey f.sessionId f.fromStudent f.toStudent) && validateUUID f.sessionId
  | (k, .vUser u) => k == "user:" ++ u.email

/-- The reflection records stored for a session, selected by record shape
rather than by prefix scan: the reflections whose sessionId field names the
session. -/
def storedReflections (st : KVStore) (sid : String) : List Reflection :=
  st.entries.filterMap fun e =>
    match e.2 with
    | .vReflection r => if r.sessionId = sid then some r else none
    | _ => none

/-- The feedback records stored for a session, selected by record shape. -/
def storedFeedback (st : KVStore) (sid : String) : List Feedback :=
  st.entries.filterMap fun e =>
    match e.2 with
    | .vFeedback f => if f.sessionId = sid then some f else none
    | _ => none

/-- The count claim C2 describes, written from the spec sentence: the number
of roster emails that have a stored Reflection with completed equal to
true. -/
def rosterCompletedCount (st : KVStore) (sid : String) (roster : List Student) : Nat :=
  (roster.filter fun stu =>
    match kvGet st (reflectionKey sid stu.email) with
    | some (.vReflection r) => r.completed
    | _ => false).length

/-- Concrete instances used by witnesses and counterexamples. -/
def demoSid : String := "11111111-1111-1111-1111-111111111111"

def demoOrg : Identity := { id := "org-1", email := "org@x.com", role := "organizer" }

def demoAlice : Identity := { id := "user-a", email := "a@x.com", role := "student" }

def demoBob : Identity := { id := "user-b", email := "b@x.com", role := "student" }

/-- Store after the organizer creates the Demo session. -/
def demoSt1 : KVStore :=
  (createSession kvEmpty (some demoOrg) (.jstr "Demo") demoSid "t0").2

/-- Store after the roster is set to Alice alone. -/
def demoSt2 : KVStore :=
  (replaceRoster demoSt1 (some demoOrg) demoSid (some [⟨"a@x.com", "Alice"⟩])).2

/-- Store after Alice saves a completed reflection. -/
def demoSt3 : KVStore :=
  (saveReflection demoSt2 (some demoAlice) demoSid
    ⟨.jobj [("projectSummary", .jstr "my project")], .jarr [], .jbool true⟩ "t1").2

/-- Store after the organizer replaces the roster with Bob, orphaning the
stored reflection of Alice. -/
def demoSt4 : KVStore :=
  (replaceRoster demoSt3 (some demoOrg) demoSid (some [⟨"b@x.com", "Bob"⟩])).2

/-- Store after the roster is set to Alice and Bob (for feedback scenarios). -/
def demoSt2ab : KVStore :=
  (replaceRoster demoSt1 (some demoOrg) demoSid
    (some [⟨"a@x.com", "Alice"⟩, ⟨"b@x.com", "Bob"⟩])).2

/-- The Demo session record as first created. -/
def demoSess1 : Session :=
  { id := demoSid, organizerId := "org-1", organizerEmail := "org@x.com",
    name := "Demo", status := "setup", students := [], createdAt := "t0" }

/-- The Demo session after the roster is set to Alice. -/
def demoSess2 : Session := { demoSess1 with students := [⟨"a@x.com", "Alice"⟩] }

/-- The Demo session after the roster is set to Alice and Bob. -/
def demoSess2ab : Session :=
  { demoSess1 with students := [⟨"a@x.com", "Alice"⟩, ⟨"b@x.com", "Bob"⟩] }

/-- The Demo session after the roster is replaced with Bob alone. -/
def demoSess4 : Session := { demoSess1 with students := [⟨"b@x.com", "Bob"⟩] }

-- ===== Store lemmas =====

theorem find?_map_replaceKey (l : List (String × KVValue)) (k k2 : String) (v : KVValue)
    (h : k2 ≠ k) :
    (l.map (fun e => if e.1 == k then (k, v) else e)).find? (fun e => e.1 == k2) =
      l.find? (fun e => e.1 == k2) := by
  induction l with
  | nil => rfl
  | cons e t ih =>
    by_cases he : e.1 = k
    · have h2 : (e.1 == k2) = false := by simp [he, Ne.symm h]
      simp only [List.map_cons, he, beq_self_eq_true, if_true]
      rw [List.find?_cons_of_neg _ (by simp [Ne.symm h]),
        List.find?_cons_of_neg _ (by simp [h2]), ih]
    · have h1 : (e.1 == k) = false := by simp [he]
      simp only [List.map_cons, h1, Bool.false_eq_true, if_false]
      by_cases hp : e.1 = k2
      · rw [List.find?_cons_of_pos _ (by simp [hp]), List.find?_cons_of_pos _ (by simp [hp])]
      · rw [List.find?_cons_of_neg _ (by simp [hp]), List.find?_cons_of_neg _ (by simp [hp]), ih]

theorem find?_upsert_self (l : List (String × KVValue)) (k : String) (v : KVValue) :
    (upsertEntries l k v).find? (fun e => e.1 == k) = some (k, v) := by
  induction l with
  | nil => simp [upsertEntries]
  | cons e t ih =>
    simp only [upsertEntries] at ih ⊢
    by_cases he : e.1 = k
    · simp only [List.any_cons, he, beq_self_eq_true, Bool.true_or, if_true, List.map_cons]
      rw [List.find?_cons_of_pos _ (by simp)]
    · have h1 : (e.1 == k) = false := by simp [he]
      simp only [List.any_cons, h1, Bool.false_or]
      by_cases ht : (t.any fun e => e.1 == k) = true
      · simp only [ht, if_true] at ih ⊢
        simp only [List.map_cons, h1, Bool.false_eq_true, if_false]
        rw [List.find?_cons_of_neg _ (by simp [he])]
        exact ih
      · rw [Bool.not_eq_true] at ht
        simp only [ht, Bool.false_eq_true, if_false] at ih ⊢
        rw [List.cons_append, List.find?_cons_of_neg _ (by simp [he])]
        exact ih

theorem find?_upsert_ne (l : List (String × KVValue)) (k k2 : String) (v : KVValue)
    (h : k2 ≠ k) :
    (upsertEntries l k v).find? (fun e => e.1 == k2) = l.find? (fun e => e.1 == k2) := by
  unfold upsertEntries
  by_cases ha : (l.any fun e => e.1 == k) = true
  · simp only [ha, if_true]
    exact find?_map_replaceKey l k k2 v h
  · rw [Bool.not_eq_true] at ha
    simp only [ha, Bool.false_eq_true, if_false, List.find?_append]
    have h3 : (k == k2) = false := by simp [Ne.symm h]
    simp [List.find?, h3]

theorem kvGet_kvSet_self (st : KVStore) (k : String) (v : KVValue) :
    kvGet (kvSet st k v) k = some v := by
  unfold kvGet kvSet
  simp [find?_upsert_self]

theorem kvGet_kvSet_ne (st : KVStore) (k k2 : String) (v : KVValue) (h : k2 ≠ k) :
    kvGet (kvSet st k v) k2 = kvGet st k2 := by
  unfold kvGet kvSet
  simp [find?_upsert_ne _ _ _ _ h]

theorem mem_upsert (l : List (String × KVValue)) (k : String) (v : KVValue)
    (e : String × KVValue) (h : e ∈ upsertEntries l k v) : e ∈ l ∨ e = (k, v) := by
  unfold upsertEntries at h
  by_cases ha : (l.any fun e => e.1 == k) = true
  · simp only [ha, if_true, List.mem_map] at h
    obtain ⟨e2, he2, heq⟩ := h
    by_cases hk : e2.1 = k
    · right
      simp only [hk, beq_self_eq_true, if_true] at heq
      exact heq.symm
    · left
      have h1 : (e2.1 == k) = false := by simp [hk]
      simp only [h1, Bool.false_eq_true, if_false] at heq
      exact heq ▸ he2
  · rw [Bool.not_eq_true] at ha
    simp only [ha, Bool.false_eq_true, if_false, List.mem_append, List.mem_singleton] at h
    exact h

theorem keys_upsert (l : List (String × KVValue)) (k : String) (v : KVValue) :
    (upsertEntries l k v).map Prod.fst =
      if (l.any fun e => e.1 == k) = true then l.map Prod.fst else l.map Prod.fst ++ [k] := by
  unfold upsertEntries
  by_cases ha : (l.any fun e => e.1 == k) = true
  · simp only [ha, if_true, List.map_map]
    congr 1
    funext e
    by_cases hk : e.1 = k
    · simp [hk]
    · simp [hk]
  · rw [Bool.not_eq_true] at ha
    simp [ha]

theorem nodupKeys_kvSet (st : KVStore) (k : String) (v : KVValue)
    (h : (st.entries.map Prod.fst).Nodup) :
    ((kvSet st k v).entries.map Prod.fst).Nodup := by
  unfold kvSet
  rw [keys_upsert]
  by_cases ha : (st.entries.any fun e => e.1 == k) = true
  · simp only [ha, if_true]
    exact h
  · rw [Bool.not_eq_true] at ha
    simp only [ha, Bool.false_eq_true, if_false]
    rw [List.nodup_append]
    refine ⟨h, List.nodup_singleton k, ?_⟩
    intro a hmem hk
    simp only [List.mem_singleton] at hk
    subst hk
    rw [List.any_eq_false] at ha
    simp only [List.mem_map] at hmem
    obtain ⟨e, he, hek⟩ := hmem
    exact absurd (by simp [hek]) (ha e he)

theorem filter_keyEq_nil (l : List (String × KVValue)) (k : String)
    (h : k ∉ l.map Prod.fst) : (l.filter fun e => e.1 == k) = [] := by
  rw [List.filter_eq_nil_iff]
  intro e he hek
  exact h (List.mem_map.mpr ⟨e, he, by simpa using hek⟩)

theorem length_filter_keyEq_of_nodup (l : List (String × KVValue)) (k : String)
    (hnd : (l.map Prod.fst).Nodup) (ha : (l.any fun e => e.1 == k) = true) :
    (l.filter fun e => e.1 == k).length = 1 := by
  induction l with
  | nil => simp at ha
  | cons e t ih =>
    rw [List.map_cons, List.nodup_cons] at hnd
    by_cases hek : e.1 = k
    · have hnot : k ∉ t.map Prod.fst := hek ▸ hnd.1
      rw [List.filter_cons_of_pos (by simp [hek]), filter_keyEq_nil t k hnot]
      rfl
    · have ht : (t.any fun e => e.1 == k) = true := by
        rcases List.any_eq_true.mp ha with ⟨x, hx, hxk⟩
        rcases List.mem_cons.mp hx with rfl | hx2
        · exact absurd (by simpa using hxk) hek
        · exact List.any_eq_true.mpr ⟨x, hx2, hxk⟩
      rw [List.filter_cons_of_neg (by simp [hek])]
      exact ih hnd.2 ht

theorem countKey_kvSet_self (st : KVStore) (k : String) (v : KVValue)
    (h : (st.entries.map Prod.fst).Nodup) :
    ((kvSet st k v).entries.filter fun e => e.1 == k).length = 1 := by
  unfold kvSet upsertEntries
  by_cases ha : (st.entries.any fun e => e.1 == k) = true
  · simp only [ha, if_true]
    rw [List.filter_map]
    have hcong : ((fun e : String × KVValue => e.1 == k) ∘
        fun e : String × KVValue => if e.1 == k then (k, v) else e) =
        fun e : String × KVValue => e.1 == k := by
      funext e
      by_cases hk : e.1 = k
      · simp [hk]
      · simp [hk]
    rw [hcong, List.length_map]
    exact length_filter_keyEq_of_nodup st.entries k h ha
  · rw [Bool.not_eq_true] at ha
    simp only [ha, Bool.false_eq_true, if_false, List.filter_append]
    have hnil : (st.entries.filter fun e => e.1 == k) = [] := by
      apply filter_keyEq_nil
      rw [List.any_eq_false] at ha
      intro hmem
      simp only [List.mem_map] at hmem
      obtain ⟨e, he, hek⟩ := hmem
      exact absurd (by simp [hek]) (ha e he)
    rw [hnil]
    simp

-- ===== Helper lemmas and per-endpoint evaluation lemmas =====

theorem stringExt {s t : String} (h : s.toList = t.toList) : s = t := by
  cases s
  cases t
  exact congrArg String.mk (by simpa [String.toList] using h)

theorem getSession?_kvSet_self (st : KVStore) (sid : String) (sess : Session) :
    getSession? (kvSet st (sessionKey sid) (.vSession sess)) sid = some sess := by
  unfold getSession?
  rw [kvGet_kvSet_self]

theorem kvGet_eq_some {st : KVStore} {k : String} {v : KVValue}
    (h : kvGet st k = some v) : ∃ e ∈ st.entries, e.1 = k ∧ e.2 = v := by
  unfold kvGet at h
  obtain ⟨e, he, hev⟩ := Option.map_eq_some'.mp h
  refine ⟨e, List.mem_of_find?_eq_some he, ?_, hev⟩
  have := List.find?_some he
  simpa using this

theorem jsStrictEqTrue_iff (v : JValue) : jsStrictEqTrue v = true ↔ v = .jbool true := by
  cases v with
  | jbool b => cases b <;> simp [jsStrictEqTrue]
  | jundef => simp [jsStrictEqTrue]
  | jnull => simp [jsStrictEqTrue]
  | jnum n => simp [jsStrictEqTrue]
  | jstr s => simp [jsStrictEqTrue]
  | jarr l => simp [jsStrictEqTrue]
  | jobj l => simp [jsStrictEqTrue]

-- C7 forward evaluation test
theorem replaceRoster_success (st : KVStore) (user : Identity) (sid : String)
    (R : List Student) (sess : Session)
    (hu : validateUUID sid = true)
    (hv : validateStudentArray (some R) = true)
    (hs : getSession? st sid = some sess)
    (ho : sess.organizerId = user.id) :
    replaceRoster st (some user) sid (some R) =
      (.ok { sess with students := R.map normStudent },
       kvSet st (sessionKey sid) (.vSession { sess with students := R.map normStudent })) := by
  unfold replaceRoster
  simp [hu, hv, hs, ho]

end PromptCrit

namespace PromptCrit

/-- Claim C7: roster replacement is a full overwrite with no merge.  For any
session, successfully submitting roster R1 and then roster R2 leaves the
stored roster equal to exactly the normalized entries of R2, independent of
R1. -/
theorem claim_C7_roster_full_overwrite (st : KVStore) (user : Identity) (sid : String)
    (R1 R2 : List Student) (sess : Session)
    (hu : validateUUID sid = true)
    (hv1 : validateStudentArray (some R1) = true)
    (hv2 : validateStudentArray (some R2) = true)
    (hs : getSession? st sid = some sess)
    (ho : sess.organizerId = user.id) :
    ∃ s1 st1 s2 st2,
      replaceRoster st (some user) sid (some R1) = (.ok s1, st1) ∧
      replaceRoster st1 (some user) sid (some R2) = (.ok s2, st2) ∧
      getSession? st2 sid = some s2 ∧
      s2.students = R2.map normStudent := by
  have e1 := replaceRoster_success st user sid R1 sess hu hv1 hs ho
  have hs1 : getSession? (kvSet st (sessionKey sid)
      (.vSession { sess with students := R1.map normStudent })) sid =
      some { sess with students := R1.map normStudent } :=
    getSession?_kvSet_self _ _ _
  have e2 := replaceRoster_success _ user sid R2 _ hu hv2 hs1 ho
  refine ⟨_, _, _, _, e1, e2, getSession?_kvSet_self _ _ _, rfl⟩

/-- Claim C9: roster replacement accepts a submitted list of exactly 500
valid entries, and rejects every list of 501 or more entries with
InvalidArgument, leaving the store unchanged on rejection. -/
theorem claim_C9_roster_500_boundary (st : KVStore) (user : Identity) (sid : String)
    (R500 : List Student) (sess : Session)
    (hu : validateUUID sid = true)
    (hs : getSession? st sid = some sess)
    (ho : sess.organizerId = user.id)
    (hlen : R500.length = 500)
    (hval : (R500.all fun s => validateEmailStr s.email && validateNameStr s.name) = true) :
    (∃ s2, replaceRoster st (some user) sid (some R500) =
      (.ok s2, kvSet st (sessionKey sid) (.vSession s2)) ∧
      s2.students = R500.map normStudent) ∧
    (∀ R : List Student, 501 ≤ R.length →
      (replaceRoster st (some user) sid (some R)).1 =
        .error ⟨.invalidArgument, "Invalid students array. Each student must have valid email and name."⟩ ∧
      (replaceRoster st (some user) sid (some R)).2 = st) := by
  constructor
  · have hv : validateStudentArray (some R500) = true := by
      unfold validateStudentArray
      simp [hlen, hval]
    exact ⟨_, replaceRoster_success st user sid R500 sess hu hv hs ho, rfl⟩
  · intro R hR
    have hv : validateStudentArray (some R) = false := by
      unfold validateStudentArray
      simp only [Bool.and_eq_false_iff]
      left
      simpa using by omega
    unfold replaceRoster
    simp [hu, hv]

end PromptCrit

namespace PromptCrit

set_option maxRecDepth 4000 in
set_option maxHeartbeats 1000000 in
/-- Claim C5: for every store, session id and caller, submitting feedback to a
recipient equal to the caller's own email (case-insensitively) returns
InvalidArgument and stores nothing. -/
theorem claim_C5_self_feedback_rejected (st : KVStore) (user : Identity) (sid : String)
    (sTo : String) (critiques questions : JValue) (now : String)
    (hself : jsToLower sTo = jsToLower user.email) :
    (∃ m, (submitFeedback st (some user) sid (.jstr sTo) critiques questions now).1 =
      .error ⟨.invalidArgument, m⟩) ∧
    (submitFeedback st (some user) sid (.jstr sTo) critiques questions now).2 = st := by
  unfold submitFeedback
  by_cases hu : validateUUID sid = true
  · by_cases he : validateEmailStr sTo = true
    · have hc : (jsToLower sTo == jsToLower user.email) = true := by simp [hself]
      simp [hu, he, hc]
    · have he2 : validateEmailStr sTo = false := by
        rw [Bool.not_eq_true] at he
        exact he
      simp [hu, he2]
  · have hu2 : validateUUID sid = false := by
      rw [Bool.not_eq_true] at hu
      exact hu
    simp [hu2]

set_option maxRecDepth 4000 in
set_option maxHeartbeats 1000000 in
theorem submitFeedback_success (st : KVStore) (user : Identity) (sid : String)
    (sTo : String) (critiques questions : JValue) (now : String) (sess : Session)
    (hu : validateUUID sid = true)
    (he : validateEmailStr sTo = true)
    (hne : (jsToLower sTo == jsToLower user.email) = false)
    (hcq : validateTextContent critiques 5000 = true)
    (hq : validateTextContent questions 2000 = true)
    (hs : getSession? st sid = some sess)
    (hen : isEnrolled sess user.email = true)
    (htg : isEnrolled sess (jsToLower sTo) = true) :
    submitFeedback st (some user) sid (.jstr sTo) critiques questions now =
      (.ok (mkFeedback sid user.email sTo critiques questions now),
       kvSet st (feedbackKey sid user.email (jsToLower sTo))
         (.vFeedback (mkFeedback sid user.email sTo critiques questions now))) := by
  unfold submitFeedback
  simp [hu, he, hne, hcq, hq, hs, hen, htg]

end PromptCrit

namespace PromptCrit

theorem head?_append_some (l1 l2 : List Char) (c : Char) (h : l1.head? = some c) :
    (l1 ++ l2).head? = some c := by
  cases l1 <;> simp_all

theorem stringNe_of_head_ne (c d : Char) {s t : String}
    (h1 : s.toList.head? = some c) (h2 : t.toList.head? = some d) (hne : c ≠ d) :
    s ≠ t := by
  intro h
  subst h
  rw [h1] at h2
  exact hne (Option.some.inj h2)

theorem sessionKey_ne_feedbackKey (x sid a b : String) :
    sessionKey x ≠ feedbackKey sid a b :=
  stringNe_of_head_ne 's' 'f'
    (head?_append_some ("session:".toList) _ _ (by decide))
    (head?_append_some ("feedback:".toList) _ _ (by decide))
    (by decide)

theorem sessionKey_ne_reflectionKey (x sid a : String) :
    sessionKey x ≠ reflectionKey sid a :=
  stringNe_of_head_ne 's' 'r'
    (head?_append_some ("session:".toList) _ _ (by decide))
    (head?_append_some ("reflection:".toList) _ _ (by decide))
    (by decide)

theorem getSession?_kvSet_other (st : KVStore) (sid k : String) (v : KVValue)
    (h : sessionKey sid ≠ k) :
    getSession? (kvSet st k v) sid = getSession? st sid := by
  unfold getSession?
  rw [kvGet_kvSet_ne _ _ _ _ h]

/-- Claim C6: feedback submission is idempotent per (session, author,
recipient): after two successive successful submissions by the same author to
the same recipient (compared after lowercasing), exactly one feedback record
is stored for that ordered pair, and it equals the second submission. -/
theorem claim_C6_feedback_idempotent (st : KVStore) (user : Identity) (sid : String)
    (s1 s2 : String) (cq1 q1 cq2 q2 : JValue) (now1 now2 : String) (sess : Session)
    (hnd : (st.entries.map Prod.fst).Nodup)
    (hu : validateUUID sid = true)
    (he1 : validateEmailStr s1 = true) (he2 : validateEmailStr s2 = true)
    (hne1 : (jsToLower s1 == jsToLower user.email) = false)
    (hne2 : (jsToLower s2 == jsToLower user.email) = false)
    (hcq1 : validateTextContent cq1 5000 = true) (hq1 : validateTextContent q1 2000 = true)
    (hcq2 : validateTextContent cq2 5000 = true) (hq2 : validateTextContent q2 2000 = true)
    (hs : getSession? st sid = some sess)
    (hen : isEnrolled sess user.email = true)
    (htg : isEnrolled sess (jsToLower s1) = true)
    (hsame : jsToLower s1 = jsToLower s2) :
    ∃ fb1 st1 fb2 st2,
      submitFeedback st (some user) sid (.jstr s1) cq1 q1 now1 = (.ok fb1, st1) ∧
      submitFeedback st1 (some user) sid (.jstr s2) cq2 q2 now2 = (.ok fb2, st2) ∧
      (st2.entries.filter fun e => e.1 == feedbackKey sid user.email (jsToLower s2)).length = 1 ∧
      kvGet st2 (feedbackKey sid user.email (jsToLower s2)) = some (.vFeedback fb2) ∧
      fb2 = mkFeedback sid user.email s2 cq2 q2 now2 := by
  have e1 := submitFeedback_success st user sid s1 cq1 q1 now1 sess hu he1 hne1 hcq1 hq1 hs hen htg
  have hs2 : getSession? (kvSet st (feedbackKey sid user.email (jsToLower s1))
      (.vFeedback (mkFeedback sid user.email s1 cq1 q1 now1))) sid = some sess := by
    rw [getSession?_kvSet_other _ _ _ _ (sessionKey_ne_feedbackKey _ _ _ _)]
    exact hs
  have e2 := submitFeedback_success _ user sid s2 cq2 q2 now2 sess hu he2 hne2 hcq2 hq2 hs2 hen
    (hsame ▸ htg)
  refine ⟨_, _, _, _, e1, e2, ?_, ?_, rfl⟩
  · rw [← hsame]
    exact countKey_kvSet_self _ _ _ (nodupKeys_kvSet _ _ _ hnd)
  · rw [← hsame]
    exact kvGet_kvSet_self _ _ _

end PromptCrit

namespace PromptCrit

theorem any_email_toLower (l : List Student) (em : String)
    (hl : ∀ s ∈ l, jsToLower s.email = s.email) (he : jsToLower em = em) :
    (l.any fun s => s.email == em) = (l.any fun s => jsToLower s.email == jsToLower em) := by
  induction l with
  | nil => rfl
  | cons s t ih =>
    have hs := hl s (List.mem_cons_self s t)
    simp only [List.any_cons]
    rw [ih fun x hx => hl x (List.mem_cons_of_mem s hx)]
    rw [hs, he]

/-- Claim C3: under the normalization the system maintains (roster emails are
lowercased at storage and account emails are lowercased at signup), reading
session detail succeeds exactly when the caller is the session owner or the
caller's email matches some roster entry's email case-insensitively; every
other authenticated caller receives Forbidden. -/
theorem claim_C3_session_detail_access (st : KVStore) (user : Identity) (sid : String)
    (sess : Session)
    (hu : validateUUID sid = true)
    (hs : getSession? st sid = some sess)
    (hce : jsToLower user.email = user.email)
    (hre : ∀ s ∈ sess.students, jsToLower s.email = s.email) :
    (getSessionDetail st (some user) sid = .ok sess ↔
      (sess.organizerId = user.id ∨
        (sess.students.any fun s => jsToLower s.email == jsToLower user.email) = true)) ∧
    (¬(sess.organizerId = user.id ∨
        (sess.students.any fun s => jsToLower s.email == jsToLower user.email) = true) →
      getSessionDetail st (some user) sid = .error ⟨.forbidden, "Forbidden"⟩) := by
  have hrw := any_email_toLower sess.students user.email hre hce
  unfold getSessionDetail
  simp only [hu, Bool.not_true, Bool.false_eq_true, if_false, hs]
  unfold isEnrolled
  rw [hrw]
  by_cases horg : sess.organizerId = user.id
  · simp [horg]
  · have horgb : (sess.organizerId == user.id) = false := by simp [horg]
    by_cases hmem : (sess.students.any fun s => jsToLower s.email == jsToLower user.email) = true
    · simp [horgb, hmem, horg]
    · rw [Bool.not_eq_true] at hmem
      simp [horgb, hmem, horg]

end PromptCrit

namespace PromptCrit

theorem statusInv_kvSet (st : KVStore) (k : String) (v : KVValue) (h : StatusInv st)
    (hv : ∀ sess : Session, v = .vSession sess → validStatus sess.status = true) :
    StatusInv (kvSet st k v) := by
  intro e he sess hsess
  rcases mem_upsert _ _ _ _ he with h1 | h1
  · exact h e h1 sess hsess
  · rw [h1] at hsess
    exact hv sess hsess

theorem statusInv_getSession? (st : KVStore) (sid : String) (sess : Session)
    (h : StatusInv st) (hg : getSession? st sid = some sess) :
    validStatus sess.status = true := by
  unfold getSession? at hg
  rcases hkv : kvGet st (sessionKey sid) with _ | v
  · rw [hkv] at hg
    simp at hg
  · rw [hkv] at hg
    rcases kvGet_eq_some hkv with ⟨e, he, _, hev⟩
    cases v with
    | vSession s =>
      simp only [Option.some.injEq] at hg
      exact hg ▸ h e he s hev
    | vReflection r => simp at hg
    | vFeedback f => simp at hg
    | vUser u => simp at hg

theorem statusInv_createSession (st : KVStore) (caller : Option Identity) (n : JValue)
    (i t : String) (h : StatusInv st) : StatusInv (createSession st caller n i t).2 := by
  unfold createSession
  cases caller with
  | none => exact h
  | some user =>
    repeat' split
    all_goals try exact h
    refine statusInv_kvSet _ _ _ h ?_
    intro sess heq
    cases heq
    rfl

theorem statusInv_replaceRoster (st : KVStore) (caller : Option Identity) (sid : String)
    (students : Option (List Student)) (h : StatusInv st) :
    StatusInv (replaceRoster st caller sid students).2 := by
  unfold replaceRoster
  cases caller with
  | none => exact h
  | some user =>
    repeat' split
    all_goals try exact h
    rename_i sess heq hown
    refine statusInv_kvSet _ _ _ h ?_
    intro sess2 heq2
    cases heq2
    exact statusInv_getSession? st sid sess h heq

theorem statusInv_startSession (st : KVStore) (caller : Option Identity) (sid now : String)
    (h : StatusInv st) : StatusInv (startSession st caller sid now).2 := by
  unfold startSession
  cases caller with
  | none => exact h
  | some user =>
    repeat' split
    all_goals try exact h
    refine statusInv_kvSet _ _ _ h ?_
    intro sess2 heq2
    cases heq2
    rfl

theorem statusInv_advanceSession (st : KVStore) (caller : Option Identity) (sid now : String)
    (h : StatusInv st) : StatusInv (advanceSession st caller sid now).2 := by
  unfold advanceSession
  cases caller with
  | none => exact h
  | some user =>
    repeat' split
    all_goals try exact h
    refine statusInv_kvSet _ _ _ h ?_
    intro sess2 heq2
    cases heq2
    rfl

theorem statusInv_completeSession (st : KVStore) (caller : Option Identity) (sid now : String)
    (h : StatusInv st) : StatusInv (completeSession st caller sid now).2 := by
  unfold completeSession
  cases caller with
  | none => exact h
  | some user =>
    repeat' split
    all_goals try exact h
    refine statusInv_kvSet _ _ _ h ?_
    intro sess2 heq2
    cases heq2
    rfl

theorem statusInv_reopenSession (st : KVStore) (caller : Option Identity) (sid : String)
    (phase : JValue) (now : String) (h : StatusInv st) :
    StatusInv (reopenSession st caller sid phase now).2 := by
  unfold reopenSession
  cases caller with
  | none => exact h
  | some user =>
    repeat' split
    all_goals try exact h
    all_goals
      refine statusInv_kvSet _ _ _ h ?_
      intro sess2 heq2
      cases heq2
      rfl

theorem statusInv_archiveSession (st : KVStore) (caller : Option Identity) (sid now : String)
    (h : StatusInv st) : StatusInv (archiveSession st caller sid now).2 := by
  unfold archiveSession
  cases caller with
  | none => exact h
  | some user =>
    repeat' split
    all_goals try exact h
    refine statusInv_kvSet _ _ _ h ?_
    intro sess2 heq2
    cases heq2
    rfl

theorem statusInv_saveReflection (st : KVStore) (caller : Option Identity) (sid : String)
    (body : ReflectionBody) (now : String) (h : StatusInv st) :
    StatusInv (saveReflection st caller sid body now).2 := by
  unfold saveReflection
  cases caller with
  | none => exact h
  | some user =>
    repeat' split
    all_goals try exact h
    refine statusInv_kvSet _ _ _ h ?_
    intro sess2 heq2
    cases heq2

theorem statusInv_submitFeedback (st : KVStore) (caller : Option Identity) (sid : String)
    (toStudent critiques questions : JValue) (now : String) (h : StatusInv st) :
    StatusInv (submitFeedback st caller sid toStudent critiques questions now).2 := by
  unfold submitFeedback
  cases caller with
  | none => exact h
  | some user =>
    repeat' split
    all_goals try exact h
    refine statusInv_kvSet _ _ _ h ?_
    intro sess2 heq2
    cases heq2

theorem statusInv_applyOp (st : KVStore) (op : Op) (h : StatusInv st) :
    StatusInv (applyOp st op) := by
  cases op with
  | opCreate caller n i t => exact statusInv_createSession st caller n i t h
  | opRoster caller sid students => exact statusInv_replaceRoster st caller sid students h
  | opTransition caller sid now act =>
    cases act with
    | tStart => exact statusInv_startSession st caller sid now h
    | tAdvance => exact statusInv_advanceSession st caller sid now h
    | tComplete => exact statusInv_completeSession st caller sid now h
    | tReopen phase => exact statusInv_reopenSession st caller sid phase now h
    | tArchive => exact statusInv_archiveSession st caller sid now h
  | opReflect caller sid body now => exact statusInv_saveReflection st caller sid body now h
  | opFeedback caller sid a b c now => exact statusInv_submitFeedback st caller sid a b c now h

end PromptCrit

namespace PromptCrit

set_option maxRecDepth 4000 in
set_option maxHeartbeats 1000000 in
/-- Claim C1: the session lifecycle state machine.  Every mutating operation
preserves the invariant that stored session statuses lie in the five defined
states; for an owner acting on an existing session, a transition whose source
state the section 4.2 table does not admit returns InvalidTransition and
leaves the store untouched, and an admitted transition succeeds with a target
matching a row of the table and a valid resulting status. -/
theorem claim_C1_lifecycle_state_machine (st : KVStore) (user : Identity) (sid now : String) (act : TransitionAct)
    (sess : Session)
    (hs : getSession? st sid = some sess)
    (hu : validateUUID sid = true)
    (ho : sess.organizerId = user.id)
    (harg : transitionArgOk act = true) :
    (∀ op : Op, StatusInv st → StatusInv (applyOp st op)) ∧
    (validSource act sess.status = false →
      (applyTransition st (some user) sid now act).1 =
        .error ⟨.invalidTransition, invalidTransitionMsg act⟩ ∧
      (applyTransition st (some user) sid now act).2 = st) ∧
    (validSource act sess.status = true →
      ∃ sess2, applyTransition st (some user) sid now act =
          (.ok sess2, kvSet st (sessionKey sid) (.vSession sess2)) ∧
        specTableRow sess.status act sess2.status ∧
        validStatus sess2.status = true) := by
  refine ⟨fun op hinv => statusInv_applyOp st op hinv, ?_, ?_⟩
  · intro hbad
    cases act with
    | tStart =>
      simp only [validSource] at hbad
      have hne : sess.status ≠ "setup" := by simpa using hbad
      unfold applyTransition startSession invalidTransitionMsg
      simp [hu, hs, ho, hne]
    | tAdvance =>
      simp only [validSource] at hbad
      have hne : sess.status ≠ "reflection" := by simpa using hbad
      unfold applyTransition advanceSession invalidTransitionMsg
      simp [hu, hs, ho, hne]
    | tComplete =>
      simp only [validSource] at hbad
      have hne : sess.status ≠ "critique" := by simpa using hbad
      unfold applyTransition completeSession invalidTransitionMsg
      simp [hu, hs, ho, hne]
    | tReopen phase =>
      simp only [validSource] at hbad
      rw [Bool.or_eq_false_iff] at hbad
      have hne1 : sess.status ≠ "complete" := by simpa using hbad.1
      have hne2 : sess.status ≠ "archived" := by simpa using hbad.2
      simp only [transitionArgOk] at harg
      have hg : (jsTruthy phase && !isStrVal phase "reflection" && !isStrVal phase "critique") = false := by
        rcases Bool.or_eq_true_iff.mp harg with h1 | h2
        · rcases Bool.or_eq_true_iff.mp h1 with h3 | h4
          · have h5 : jsTruthy phase = false := by simpa using h3
            simp [h5]
          · simp [h4]
        · simp [h2]
      unfold applyTransition reopenSession invalidTransitionMsg
      simp [hu, hs, ho, hne1, hne2, hg]
    | tArchive =>
      simp only [validSource] at hbad
      simp at hbad
  · intro hgood
    cases act with
    | tStart =>
      simp only [validSource] at hgood
      have hst : sess.status = "setup" := by simpa using hgood
      refine ⟨{ sess with status := "reflection", startedAt := some now }, ?_, ?_, ?_⟩
      · unfold applyTransition startSession
        simp [hu, hs, ho, hst]
      · exact ⟨hst, rfl⟩
      · rfl
    | tAdvance =>
      simp only [validSource] at hgood
      have hst : sess.status = "reflection" := by simpa using hgood
      refine ⟨{ sess with status := "critique", advancedAt := some now }, ?_, ?_, ?_⟩
      · unfold applyTransition advanceSession
        simp [hu, hs, ho, hst]
      · exact ⟨hst, rfl⟩
      · rfl
    | tComplete =>
      simp only [validSource] at hgood
      have hst : sess.status = "critique" := by simpa using hgood
      refine ⟨{ sess with status := "complete", completedAt := some now }, ?_, ?_, ?_⟩
      · unfold applyTransition completeSession
        simp [hu, hs, ho, hst]
      · exact ⟨hst, rfl⟩
      · rfl
    | tReopen phase =>
      simp only [validSource] at hgood
      simp only [transitionArgOk] at harg
      have hg : (jsTruthy phase && !isStrVal phase "reflection" && !isStrVal phase "critique") = false := by
        rcases Bool.or_eq_true_iff.mp harg with h1 | h2
        · rcases Bool.or_eq_true_iff.mp h1 with h3 | h4
          · have h5 : jsTruthy phase = false := by simpa using h3
            simp [h5]
          · simp [h4]
        · simp [h2]
      have hsrc : sess.status = "complete" ∨ sess.status = "archived" := by
        rcases Bool.or_eq_true_iff.mp hgood with h1 | h2
        · left; simpa using h1
        · right; simpa using h2
      have hguard : (sess.status != "complete" && sess.status != "archived") = false := by
        rcases hsrc with h1 | h1 <;> simp [h1]
      refine ⟨{ sess with
          status := if isStrVal phase "reflection" then "reflection" else "critique",
          reopenedAt := some now }, ?_, ?_, ?_⟩
      · unfold applyTransition reopenSession
        simp only [hg, Bool.false_eq_true, if_false]
        have hguard2 : ¬((sess.status != "complete" && sess.status != "archived") = true) := by
          simp [hguard]
        simp [hu, hs, ho, hguard2]
      · refine ⟨hsrc, ?_⟩
        by_cases hp : isStrVal phase "reflection" = true
        · left
          simp [hp]
        · right
          rw [Bool.not_eq_true] at hp
          simp [hp]
      · by_cases hp : isStrVal phase "reflection" = true
        · simp only [hp, if_true]
          rfl
        · rw [Bool.not_eq_true] at hp
          simp only [hp, Bool.false_eq_true, if_false]
          rfl
    | tArchive =>
      refine ⟨{ sess with status := "archived", archivedAt := some now }, ?_, ?_, ?_⟩
      · unfold applyTransition archiveSession
        simp [hu, hs, ho]
      · exact rfl
      · rfl

end PromptCrit

namespace PromptCrit

theorem listIncludes_iff (pat cs : List Char) :
    listIncludes pat cs = true ↔ ∃ p s, cs = p ++ pat ++ s := by
  induction cs with
  | nil =>
    unfold listIncludes
    rw [List.isPrefixOf_iff_prefix]
    constructor
    · intro h
      exact ⟨[], [], by simpa using (List.prefix_nil.mp h).symm⟩
    · rintro ⟨p, s, hps⟩
      have hp : p = [] ∧ pat ++ s = [] := by simpa using hps.symm
      have hpat : pat = [] ∧ s = [] := by simpa using hp.2
      simp [hpat.1]
  | cons c rest ih =>
    unfold listIncludes
    rw [Bool.or_eq_true_iff]
    constructor
    · rintro (h | h)
      · rw [List.isPrefixOf_iff_prefix] at h
        obtain ⟨t, ht⟩ := h
        exact ⟨[], t, by simp [ht.symm]⟩
      · obtain ⟨p, s, hps⟩ := ih.mp h
        exact ⟨c :: p, s, by simp [hps]⟩
    · rintro ⟨p, s, hps⟩
      cases p with
      | nil =>
        left
        rw [List.isPrefixOf_iff_prefix]
        simp only [List.nil_append] at hps
        exact ⟨s, hps.symm⟩
      | cons c2 p2 =>
        right
        simp only [List.cons_append, List.cons.injEq] at hps
        exact ih.mpr ⟨p2, s, hps.2⟩

theorem replaceFirstAux_of_isPrefixOf (pat sub cs : List Char)
    (h : pat.isPrefixOf cs = true) :
    replaceFirstAux pat sub cs = sub ++ cs.drop pat.length := by
  cases cs with
  | nil =>
    rw [List.isPrefixOf_iff_prefix] at h
    have : pat = [] := List.prefix_nil.mp h
    subst this
    simp [replaceFirstAux]
  | cons c rest =>
    unfold replaceFirstAux
    simp [h]

theorem replaceFirstAux_not_included (pat sub cs : List Char)
    (h : listIncludes pat cs = false) :
    replaceFirstAux pat sub cs = cs := by
  induction cs with
  | nil =>
    unfold listIncludes at h
    unfold replaceFirstAux
    simp [h]
  | cons c rest ih =>
    unfold listIncludes at h
    rw [Bool.or_eq_false_iff] at h
    unfold replaceFirstAux
    simp only [h.1, Bool.false_eq_true, if_false]
    rw [ih h.2]

theorem replaceFirstAux_first_occurrence (pat sub : List Char) (p s : List Char)
    (hno : ∀ i < p.length, pat.isPrefixOf ((p ++ pat ++ s).drop i) = false) :
    replaceFirstAux pat sub (p ++ pat ++ s) = p ++ sub ++ s := by
  induction p with
  | nil =>
    simp only [List.nil_append]
    rw [replaceFirstAux_of_isPrefixOf pat sub (pat ++ s)
      (List.isPrefixOf_iff_prefix.mpr (List.prefix_append pat s))]
    simp [List.drop_left]
  | cons c p2 ih =>
    have h0 := hno 0 (by simp)
    simp only [List.drop_zero] at h0
    simp only [List.cons_append] at h0 ⊢
    unfold replaceFirstAux
    simp only [h0, Bool.false_eq_true, if_false]
    rw [ih]
    intro i hi
    have := hno (i + 1) (by simpa using Nat.succ_lt_succ hi)
    simpa using this

end PromptCrit

namespace PromptCrit

/-- Claim C8 (amended): isComplete is set exactly when the external reply
contains the completion sentinel; only the first occurrence of the sentinel
is removed from the returned message (and the result trimmed), so the message
is sentinel-free whenever no occurrence starts before the first one removed;
a reply without the sentinel is returned trimmed and not marked complete. -/
theorem claim_C8_amended_sentinel_processing (reply : String) :
    ((processAiReply (some reply)).2 = true ↔
      ∃ p s, reply.toList = p ++ sentinelToken.toList ++ s) ∧
    (∀ p s, reply.toList = p ++ sentinelToken.toList ++ s →
      (∀ i < p.length, sentinelToken.toList.isPrefixOf (reply.toList.drop i) = false) →
      (processAiReply (some reply)).1 = jsTrim (String.mk (p ++ s))) ∧
    ((processAiReply (some reply)).2 = false →
      (processAiReply (some reply)).1 = jsTrim reply) := by
  refine ⟨?_, ?_, ?_⟩
  · show jsIncludes reply sentinelToken = true ↔ _
    unfold jsIncludes
    exact listIncludes_iff sentinelToken.toList reply.toList
  · intro p s hps hno
    show jsTrim (jsReplaceFirst reply sentinelToken "") = _
    unfold jsReplaceFirst
    congr 1
    rw [show ("" : String).toList = ([] : List Char) from rfl]
    have : replaceFirstAux sentinelToken.toList [] reply.toList = p ++ [] ++ s := by
      rw [hps]
      exact replaceFirstAux_first_occurrence sentinelToken.toList [] p s (hps ▸ hno)
    rw [this]
    simp
  · intro h
    show jsTrim (jsReplaceFirst reply sentinelToken "") = jsTrim reply
    unfold jsReplaceFirst
    congr 1
    have hni : listIncludes sentinelToken.toList reply.toList = false := h
    rw [replaceFirstAux_not_included _ _ _ hni]
    rfl

/-- Claim C8 counterexample: a reply containing the sentinel twice is marked
complete, yet the message returned to the caller still contains the literal
sentinel, refuting the claim that the token is stripped from the returned
text. -/
theorem claim_C8_counterexample :
    (processAiReply (some "[REFLECTION_COMPLETE] done [REFLECTION_COMPLETE]")).2 = true ∧
    jsIncludes (processAiReply (some "[REFLECTION_COMPLETE] done [REFLECTION_COMPLETE]")).1
      sentinelToken = true := by
  constructor
  · decide
  · decide

/-- Witness for the amended claim C8 at a concrete reply. -/
theorem claim_C8_witness :
    (processAiReply (some "xy[REFLECTION_COMPLETE]z")).2 = true ∧
    (processAiReply (some "xy[REFLECTION_COMPLETE]z")).1 =
      jsTrim (String.mk (['x', 'y'] ++ ['z'])) :=
  ⟨((claim_C8_amended_sentinel_processing "xy[REFLECTION_COMPLETE]z").1).mpr ⟨['x', 'y'], ['z'], by decide⟩,
   (claim_C8_amended_sentinel_processing "xy[REFLECTION_COMPLETE]z").2.1 ['x', 'y'] ['z'] (by decide) (by decide)⟩

end PromptCrit

namespace PromptCrit

theorem validateUUID_length {s : String} (h : validateUUID s = true) :
    s.toList.length = 36 := by
  unfold validateUUID at h
  rw [Bool.and_eq_true] at h
  simpa using h.1

theorem validateUUID_no_colon {s : String} (h : validateUUID s = true) :
    ':' ∉ s.toList := by
  intro hmem
  have hlen := validateUUID_length h
  unfold validateUUID at h
  rw [Bool.and_eq_true] at h
  have hall := h.2
  rw [List.all_eq_true] at hall
  obtain ⟨i, hi, hget⟩ := List.getElem_of_mem hmem
  have hi36 : i < 36 := by omega
  have := hall i (List.mem_range.mpr hi36)
  have hgd : s.toList.getD i ' ' = ':' := by
    rw [List.getD_eq_getElem _ _ (show i < s.toList.length by omega)]
    exact hget
  by_cases hd : (i == 8 || i == 13 || i == 18 || i == 23) = true
  · rw [if_pos hd] at this
    rw [hgd] at this
    simp at this
  · rw [Bool.not_eq_true] at hd
    rw [if_neg (by simp [hd])] at this
    rw [hgd] at this
    simp [isHexDigitChar] at this

theorem uuidTag_isPrefixOf_iff (tag sid sid2 : String) (rest : List Char)
    (h1 : validateUUID sid = true) (h2 : validateUUID sid2 = true) :
    ((tag ++ sid ++ ":").toList.isPrefixOf ((tag ++ sid2 ++ ":").toList ++ rest)) = true ↔
      sid2 = sid := by
  have hl1 := validateUUID_length h1
  have hl2 := validateUUID_length h2
  have htl : (tag ++ sid ++ ":").toList = tag.toList ++ sid.toList ++ [':'] := rfl
  have htl2 : (tag ++ sid2 ++ ":").toList = tag.toList ++ sid2.toList ++ [':'] := rfl
  rw [htl, htl2, List.isPrefixOf_iff_prefix]
  constructor
  · intro h
    obtain ⟨t, ht⟩ := h
    rw [List.append_assoc, List.append_assoc, List.append_assoc, List.append_assoc] at ht
    have hcancel := List.append_cancel_left ht
    rw [← List.append_assoc, ← List.append_assoc] at hcancel
    have hinj := List.append_inj hcancel
      (by simp only [List.length_append, List.length_cons, List.length_nil]
          rw [show sid.toList.length = 36 from hl1, show sid2.toList.length = 36 from hl2])
    exact stringExt (List.append_cancel_right hinj.1).symm
  · intro h
    subst h
    exact List.prefix_append _ rest

end PromptCrit

namespace PromptCrit

theorem toList_append (s t : String) : (s ++ t).toList = s.toList ++ t.toList := rfl

theorem head?_toList_of_head? (s t : String) (c : Char) (h : s.toList.head? = some c) :
    (s ++ t).toList.head? = some c :=
  head?_append_some s.toList t.toList c h

theorem isPrefixOf_false_of_head_ne (l1 l2 : List Char) (c d : Char)
    (h1 : l1.head? = some c) (h2 : l2.head? = some d) (hne : c ≠ d) :
    l1.isPrefixOf l2 = false := by
  cases hb : l1.isPrefixOf l2 with
  | false => rfl
  | true =>
    rw [List.isPrefixOf_iff_prefix] at hb
    obtain ⟨t, rfl⟩ := hb
    rw [head?_append_some _ _ _ h1] at h2
    exact absurd (Option.some.inj h2) hne

theorem reflScanPre_head (sid : String) :
    ("reflection:" ++ sid ++ ":").toList.head? = some 'r' :=
  head?_toList_of_head? _ _ _ (head?_toList_of_head? _ _ _ (by decide))

theorem fbScanPre_head (sid : String) :
    ("feedback:" ++ sid ++ ":").toList.head? = some 'f' :=
  head?_toList_of_head? _ _ _ (head?_toList_of_head? _ _ _ (by decide))

theorem sessionKey_head (x : String) : (sessionKey x).toList.head? = some 's' :=
  head?_toList_of_head? _ _ _ (by decide)

theorem reflectionKey_head (a b : String) : (reflectionKey a b).toList.head? = some 'r' :=
  head?_toList_of_head? _ _ _ (head?_toList_of_head? _ _ _ (head?_toList_of_head? _ _ _ (by decide)))

theorem feedbackKey_head (x a b : String) : (feedbackKey x a b).toList.head? = some 'f' :=
  head?_toList_of_head? _ _ _ (head?_toList_of_head? _ _ _ (head?_toList_of_head? _ _ _
    (head?_toList_of_head? _ _ _ (head?_toList_of_head? _ _ _ (by decide)))))

theorem userKey_head (a : String) : ("user:" ++ a).toList.head? = some 'u' :=
  head?_toList_of_head? _ _ _ (by decide)

theorem reflectionKey_toList (a b : String) :
    (reflectionKey a b).toList = ("reflection:" ++ a ++ ":").toList ++ b.toList := by
  unfold reflectionKey
  simp [toList_append, List.append_assoc]

theorem feedbackKey_toList (x a b : String) :
    (feedbackKey x a b).toList =
      ("feedback:" ++ x ++ ":").toList ++ (a ++ ":" ++ b).toList := by
  unfold feedbackKey
  simp [toList_append, List.append_assoc]

theorem scanReflections_eq_stored (st : KVStore) (sid : String)
    (hu : validateUUID sid = true)
    (hwf : ∀ e ∈ st.entries, entryWF e = true) :
    scanReflections st sid = storedReflections st sid := by
  unfold scanReflections storedReflections kvGetByPrefix
  obtain ⟨l⟩ := st
  simp only at hwf ⊢
  revert hwf
  induction l with
  | nil => intro _; rfl
  | cons e t ih =>
    intro hwf
    have hwfe := hwf e (List.mem_cons_self e t)
    have hwft : ∀ x ∈ t, entryWF x = true := fun x hx => hwf x (List.mem_cons_of_mem e hx)
    have iht := ih hwft
    obtain ⟨k, v⟩ := e
    cases v with
    | vSession s =>
      have hk : k = sessionKey s.id := by
        unfold entryWF at hwfe
        rw [Bool.and_eq_true] at hwfe
        simpa using hwfe.1
      have hpre : (("reflection:" ++ sid ++ ":").toList.isPrefixOf k.toList) = false := by
        subst hk
        exact isPrefixOf_false_of_head_ne _ _ 'r' 's' (reflScanPre_head sid)
          (sessionKey_head s.id) (by decide)
      simp only [List.filter_cons, hpre, Bool.false_eq_true, if_false, List.filterMap_cons]
      exact iht
    | vUser u =>
      have hk : k = "user:" ++ u.email := by
        unfold entryWF at hwfe
        simpa using hwfe
      have hpre : (("reflection:" ++ sid ++ ":").toList.isPrefixOf k.toList) = false := by
        subst hk
        exact isPrefixOf_false_of_head_ne _ _ 'r' 'u' (reflScanPre_head sid)
          (userKey_head u.email) (by decide)
      simp only [List.filter_cons, hpre, Bool.false_eq_true, if_false, List.filterMap_cons]
      exact iht
    | vFeedback f =>
      have hk : k = feedbackKey f.sessionId f.fromStudent f.toStudent := by
        unfold entryWF at hwfe
        rw [Bool.and_eq_true] at hwfe
        simpa using hwfe.1
      have hpre : (("reflection:" ++ sid ++ ":").toList.isPrefixOf k.toList) = false := by
        subst hk
        exact isPrefixOf_false_of_head_ne _ _ 'r' 'f' (reflScanPre_head sid)
          (feedbackKey_head f.sessionId f.fromStudent f.toStudent) (by decide)
      simp only [List.filter_cons, hpre, Bool.false_eq_true, if_false, List.filterMap_cons]
      exact iht
    | vReflection r =>
      have hkv : k = reflectionKey r.sessionId r.studentEmail ∧ validateUUID r.sessionId = true := by
        unfold entryWF at hwfe
        rw [Bool.and_eq_true] at hwfe
        exact ⟨by simpa using hwfe.1, hwfe.2⟩
      have hiff : (("reflection:" ++ sid ++ ":").toList.isPrefixOf k.toList) = true ↔
          r.sessionId = sid := by
        rw [hkv.1, reflectionKey_toList]
        exact uuidTag_isPrefixOf_iff "reflection:" sid r.sessionId r.studentEmail.toList hu hkv.2
      by_cases hsid : r.sessionId = sid
      · have hpre : (("reflection:" ++ sid ++ ":").toList.isPrefixOf k.toList) = true :=
          hiff.mpr hsid
        simp only [List.filter_cons, hpre, if_true, List.map_cons, List.filterMap_cons, hsid,
          if_pos rfl]
        rw [iht]
      · have hpre : (("reflection:" ++ sid ++ ":").toList.isPrefixOf k.toList) = false := by
          cases hb : ("reflection:" ++ sid ++ ":").toList.isPrefixOf k.toList with
          | false => rfl
          | true => exact absurd (hiff.mp hb) hsid
        simp only [List.filter_cons, hpre, Bool.false_eq_true, if_false, List.filterMap_cons,
          hsid, if_neg hsid]
        exact iht

end PromptCrit

namespace PromptCrit

theorem scanFeedback_eq_stored (st : KVStore) (sid : String)
    (hu : validateUUID sid = true)
    (hwf : ∀ e ∈ st.entries, entryWF e = true) :
    scanFeedback st sid = storedFeedback st sid := by
  unfold scanFeedback storedFeedback kvGetByPrefix
  obtain ⟨l⟩ := st
  simp only at hwf ⊢
  revert hwf
  induction l with
  | nil => intro _; rfl
  | cons e t ih =>
    intro hwf
    have hwfe := hwf e (List.mem_cons_self e t)
    have hwft : ∀ x ∈ t, entryWF x = true := fun x hx => hwf x (List.mem_cons_of_mem e hx)
    have iht := ih hwft
    obtain ⟨k, v⟩ := e
    cases v with
    | vSession s =>
      have hk : k = sessionKey s.id := by
        unfold entryWF at hwfe
        rw [Bool.and_eq_true] at hwfe
        simpa using hwfe.1
      have hpre : (("feedback:" ++ sid ++ ":").toList.isPrefixOf k.toList) = false := by
        subst hk
        exact isPrefixOf_false_of_head_ne _ _ 'f' 's' (fbScanPre_head sid)
          (sessionKey_head s.id) (by decide)
      simp only [List.filter_cons, hpre, Bool.false_eq_true, if_false, List.filterMap_cons]
      exact iht
    | vUser u =>
      have hk : k = "user:" ++ u.email := by
        unfold entryWF at hwfe
        simpa using hwfe
      have hpre : (("feedback:" ++ sid ++ ":").toList.isPrefixOf k.toList) = false := by
        subst hk
        exact isPrefixOf_false_of_head_ne _ _ 'f' 'u' (fbScanPre_head sid)
          (userKey_head u.email) (by decide)
      simp only [List.filter_cons, hpre, Bool.false_eq_true, if_false, List.filterMap_cons]
      exact iht
    | vReflection r =>
      have hk : k = reflectionKey r.sessionId r.studentEmail := by
        unfold entryWF at hwfe
        rw [Bool.and_eq_true] at hwfe
        simpa using hwfe.1
      have hpre : (("feedback:" ++ sid ++ ":").toList.isPrefixOf k.toList) = false := by
        subst hk
        exact isPrefixOf_false_of_head_ne _ _ 'f' 'r' (fbScanPre_head sid)
          (reflectionKey_head r.sessionId r.studentEmail) (by decide)
      simp only [List.filter_cons, hpre, Bool.false_eq_true, if_false, List.filterMap_cons]
      exact iht
    | vFeedback f =>
      have hkv : k = feedbackKey f.sessionId f.fromStudent f.toStudent ∧
          validateUUID f.sessionId = true := by
        unfold entryWF at hwfe
        rw [Bool.and_eq_true] at hwfe
        exact ⟨by simpa using hwfe.1, hwfe.2⟩
      have hiff : (("feedback:" ++ sid ++ ":").toList.isPrefixOf k.toList) = true ↔
          f.sessionId = sid := by
        rw [hkv.1, feedbackKey_toList]
        exact uuidTag_isPrefixOf_iff "feedback:" sid f.sessionId
          (f.fromStudent ++ ":" ++ f.toStudent).toList hu hkv.2
      by_cases hsid : f.sessionId = sid
      · have hpre : (("feedback:" ++ sid ++ ":").toList.isPrefixOf k.toList) = true :=
          hiff.mpr hsid
        simp only [List.filter_cons, hpre, if_true, List.map_cons, List.filterMap_cons, hsid,
          if_pos rfl]
        rw [iht]
      · have hpre : (("feedback:" ++ sid ++ ":").toList.isPrefixOf k.toList) = false := by
          cases hb : ("feedback:" ++ sid ++ ":").toList.isPrefixOf k.toList with
          | false => rfl
          | true => exact absurd (hiff.mp hb) hsid
        simp only [List.filter_cons, hpre, Bool.false_eq_true, if_false, List.filterMap_cons,
          hsid, if_neg hsid]
        exact iht

end PromptCrit

namespace PromptCrit

theorem sessionKey_inj {a b : String} (h : sessionKey a = sessionKey b) : a = b := by
  have h2 : "session:".toList ++ a.toList = "session:".toList ++ b.toList :=
    congrArg String.toList h
  exact stringExt (List.append_cancel_left h2)

theorem getSession?_validateUUID (st : KVStore) (sid : String) (sess : Session)
    (hwf : ∀ e ∈ st.entries, entryWF e = true)
    (hs : getSession? st sid = some sess) : validateUUID sid = true := by
  unfold getSession? at hs
  rcases hkv : kvGet st (sessionKey sid) with _ | v
  · rw [hkv] at hs
    simp at hs
  · rw [hkv] at hs
    rcases kvGet_eq_some hkv with ⟨e, he, hek, hev⟩
    have hwfe := hwf e he
    obtain ⟨k, v2⟩ := e
    simp only at hek hev
    subst hev
    subst hek
    cases v2 with
    | vSession s =>
      unfold entryWF at hwfe
      rw [Bool.and_eq_true] at hwfe
      have hid : sid = s.id := sessionKey_inj (by simpa using hwfe.1)
      rw [hid]
      exact hwfe.2
    | vReflection r => simp at hs
    | vFeedback f => simp at hs
    | vUser u => simp at hs

theorem getProgress_success (st : KVStore) (user : Identity) (sid : String) (sess : Session)
    (hu : validateUUID sid = true)
    (hs : getSession? st sid = some sess)
    (ho : sess.organizerId = user.id) :
    getProgress st (some user) sid = .ok (mkProgress st sid sess) := by
  unfold getProgress
  simp [hu, hs, ho]

/-- Claim C2 (amended): for a well-formed store, the progress aggregation
returns feedbackSubmissions equal to the total number of stored Feedback
records of the session, and completedReflections equal to the number of
stored Reflection records of the session with completed=true - counting
stored records by key shape, including records whose participant email is no
longer on the roster. -/
theorem claim_C2_amended_progress_counts (st : KVStore) (user : Identity) (sid : String) (sess : Session)
    (hwf : ∀ e ∈ st.entries, entryWF e = true)
    (hs : getSession? st sid = some sess)
    (ho : sess.organizerId = user.id) :
    ∃ p, getProgress st (some user) sid = .ok p ∧
      p.totalStudents = sess.students.length ∧
      p.completedReflections = ((storedReflections st sid).filter fun r => r.completed).length ∧
      p.feedbackSubmissions = (storedFeedback st sid).length := by
  have hu := getSession?_validateUUID st sid sess hwf hs
  refine ⟨mkProgress st sid sess, getProgress_success st user sid sess hu hs ho, rfl, ?_, ?_⟩
  · show ((scanReflections st sid).filter fun r => r.completed).length = _
    rw [scanReflections_eq_stored st sid hu hwf]
  · show (scanFeedback st sid).length = _
    rw [scanFeedback_eq_stored st sid hu hwf]

end PromptCrit

namespace PromptCrit

set_option maxRecDepth 4000 in
set_option maxHeartbeats 1000000 in
theorem saveReflection_success (st : KVStore) (user : Identity) (sid : String)
    (body : ReflectionBody) (now : String) (sess : Session)
    (hu : validateUUID sid = true)
    (hr : responsesBad body.responses = false)
    (hscr : screenshotsBad body.screenshots = false)
    (hs : getSession? st sid = some sess)
    (hen : isEnrolled sess user.email = true) :
    saveReflection st (some user) sid body now =
      (.ok (mkReflection sid user.email body now),
       kvSet st (reflectionKey sid user.email)
         (.vReflection (mkReflection sid user.email body now))) := by
  unfold saveReflection
  simp [hu, hr, hscr, hs, hen]

/-- Claim C10: every reflection record stored by a successful save has a
boolean completed field, and completed is true exactly when the caller
supplied the literal JSON boolean true; any other value, truthy non-boolean
values included, stores completed=false. -/
theorem claim_C10_reflection_completed_strict (st : KVStore) (user : Identity)
    (sid : String) (body : ReflectionBody) (now : String) (sess : Session)
    (hu : validateUUID sid = true)
    (hr : responsesBad body.responses = false)
    (hscr : screenshotsBad body.screenshots = false)
    (hs : getSession? st sid = some sess)
    (hen : isEnrolled sess user.email = true) :
    ∃ refl st2, saveReflection st (some user) sid body now = (.ok refl, st2) ∧
      kvGet st2 (reflectionKey sid user.email) = some (.vReflection refl) ∧
      (refl.completed = true ∨ refl.completed = false) ∧
      (refl.completed = true ↔ body.completed = .jbool true) := by
  refine ⟨mkReflection sid user.email body now, _,
    saveReflection_success st user sid body now sess hu hr hscr hs hen,
    kvGet_kvSet_self _ _ _, ?_, ?_⟩
  · cases h : (mkReflection sid user.email body now).completed
    · right; rfl
    · left; rfl
  · exact jsStrictEqTrue_iff body.completed

/-- Witness for claim C10: a truthy but non-boolean completed value is stored
as completed=false. -/
theorem claim_C10_witness :
    (isEnrolled demoSess2 demoAlice.email = true) ∧
    ∃ refl st2, saveReflection demoSt2 (some demoAlice) demoSid
        ⟨.jobj [("projectSummary", .jstr "sum")], .jarr [], .jstr "yes"⟩ "t1" =
        (.ok refl, st2) ∧
      kvGet st2 (reflectionKey demoSid demoAlice.email) = some (.vReflection refl) ∧
      (refl.completed = true ∨ refl.completed = false) ∧
      (refl.completed = true ↔
        (⟨.jobj [("projectSummary", .jstr "sum")], .jarr [], .jstr "yes"⟩ :
          ReflectionBody).completed = .jbool true) :=
  ⟨by decide,
   claim_C10_reflection_completed_strict demoSt2 demoAlice demoSid
     ⟨.jobj [("projectSummary", .jstr "sum")], .jarr [], .jstr "yes"⟩ "t1" demoSess2
     (by decide) (by decide) (by decide) (by decide) (by decide)⟩

/-- Claim C4 (code divergence): session creation never consults the caller's
declared role.  An authenticated caller whose declared role is student
succeeds, and the new session's status is setup; the handler's result is
role-independent.  The unauthenticated and invalid-name behavior the claim
also states does hold. -/
theorem claim_C4_create_session_role_not_checked :
    (∃ sess, createSession kvEmpty (some ⟨"user-s", "s@x.com", "student"⟩)
        (.jstr "Demo") demoSid "t0" =
        (.ok sess, kvSet kvEmpty (sessionKey demoSid) (.vSession sess)) ∧
      sess.status = "setup") ∧
    (∀ (st : KVStore) (nameArg : JValue) (i t uid em r1 r2 : String),
      createSession st (some ⟨uid, em, r1⟩) nameArg i t =
        createSession st (some ⟨uid, em, r2⟩) nameArg i t) ∧
    (∀ (st : KVStore) (nameArg : JValue) (i t : String),
      (createSession st none nameArg i t).1 =
        .error ⟨.unauthenticated, "Missing authorization token"⟩) ∧
    (∀ (st : KVStore) (i t : String) (user : Identity),
      (createSession st (some user) (.jstr "") i t).1 =
        .error ⟨.invalidArgument, "Session name must be between 1 and 200 characters"⟩) := by
  refine ⟨⟨_, rfl, rfl⟩, ?_, ?_, ?_⟩
  · intro st nameArg i t uid em r1 r2
    rfl
  · intro st nameArg i t
    rfl
  · intro st i t user
    rfl

/-- Claim C2 counterexample: after the roster [Alice] is replaced by [Bob],
the stored completed reflection of Alice is orphaned: the progress
aggregation reports completedReflections = 1, while the number of roster
emails with a stored completed Reflection is 0. -/
theorem claim_C2_counterexample :
    (getProgress demoSt4 (some demoOrg) demoSid).toOption.map
      (fun p => p.completedReflections) = some 1 ∧
    (getSession? demoSt4 demoSid).map
      (fun s => rosterCompletedCount demoSt4 demoSid s.students) = some 0 := by
  constructor
  · decide
  · decide

/-- Witness for the amended claim C2 on a concrete well-formed store. -/
theorem claim_C2_witness :
    (∀ e ∈ demoSt4.entries, entryWF e = true) ∧
    ∃ p, getProgress demoSt4 (some demoOrg) demoSid = .ok p ∧
      p.totalStudents = demoSess4.students.length ∧
      p.completedReflections =
        ((storedReflections demoSt4 demoSid).filter fun r => r.completed).length ∧
      p.feedbackSubmissions = (storedFeedback demoSt4 demoSid).length :=
  ⟨by decide,
   claim_C2_amended_progress_counts demoSt4 demoOrg demoSid demoSess4
     (by decide) (by decide) (by decide)⟩

/-- Witness for claim C1: starting the Demo session from setup. -/
theorem claim_C1_witness :
    (getSession? demoSt2 demoSid = some demoSess2) ∧
    ∃ sess2, applyTransition demoSt2 (some demoOrg) demoSid "t9" .tStart =
        (.ok sess2, kvSet demoSt2 (sessionKey demoSid) (.vSession sess2)) ∧
      specTableRow demoSess2.status .tStart sess2.status ∧
      validStatus sess2.status = true :=
  ⟨by decide,
   (claim_C1_lifecycle_state_machine demoSt2 demoOrg demoSid "t9" .tStart demoSess2
     (by decide) (by decide) (by decide) (by decide)).2.2 (by decide)⟩

/-- Witness for claim C3: Alice can read the session she is enrolled in. -/
theorem claim_C3_witness :
    (jsToLower demoAlice.email = demoAlice.email) ∧
    ((getSessionDetail demoSt2 (some demoAlice) demoSid = .ok demoSess2 ↔
      (demoSess2.organizerId = demoAlice.id ∨
        (demoSess2.students.any fun s =>
          jsToLower s.email == jsToLower demoAlice.email) = true)) ∧
    (¬(demoSess2.organizerId = demoAlice.id ∨
        (demoSess2.students.any fun s =>
          jsToLower s.email == jsToLower demoAlice.email) = true) →
      getSessionDetail demoSt2 (some demoAlice) demoSid =
        .error ⟨.forbidden, "Forbidden"⟩)) :=
  ⟨by decide,
   claim_C3_session_detail_access demoSt2 demoAlice demoSid demoSess2
     (by decide) (by decide) (by decide) (by decide)⟩

/-- Witness for claim C5: Alice submitting feedback to her own address in
different case is rejected and the store is unchanged. -/
theorem claim_C5_witness :
    (jsToLower "A@X.com" = jsToLower demoAlice.email) ∧
    ((∃ m, (submitFeedback demoSt2 (some demoAlice) demoSid (.jstr "A@X.com")
        (.jstr "hi") (.jstr "q") "t5").1 = .error ⟨.invalidArgument, m⟩) ∧
     (submitFeedback demoSt2 (some demoAlice) demoSid (.jstr "A@X.com")
        (.jstr "hi") (.jstr "q") "t5").2 = demoSt2) :=
  ⟨by decide,
   claim_C5_self_feedback_rejected demoSt2 demoAlice demoSid "A@X.com"
     (.jstr "hi") (.jstr "q") "t5" (by decide)⟩

/-- Witness for claim C6: Alice submits feedback to Bob twice (second time
with the recipient in different case); one record remains, equal to the
second submission. -/
theorem claim_C6_witness :
    ((demoSt2ab.entries.map Prod.fst).Nodup) ∧
    ∃ fb1 st1 fb2 st2,
      submitFeedback demoSt2ab (some demoAlice) demoSid (.jstr "b@x.com")
        (.jstr "first crit") (.jstr "first q") "t5" = (.ok fb1, st1) ∧
      submitFeedback st1 (some demoAlice) demoSid (.jstr "B@x.com")
        (.jstr "second crit") (.jstr "second q") "t6" = (.ok fb2, st2) ∧
      (st2.entries.filter fun e =>
        e.1 == feedbackKey demoSid demoAlice.email (jsToLower "B@x.com")).length = 1 ∧
      kvGet st2 (feedbackKey demoSid demoAlice.email (jsToLower "B@x.com")) =
        some (.vFeedback fb2) ∧
      fb2 = mkFeedback demoSid demoAlice.email "B@x.com"
        (.jstr "second crit") (.jstr "second q") "t6" :=
  ⟨by decide,
   claim_C6_feedback_idempotent demoSt2ab demoAlice demoSid "b@x.com" "B@x.com"
     (.jstr "first crit") (.jstr "first q") (.jstr "second crit") (.jstr "second q")
     "t5" "t6" demoSess2ab (by decide) (by decide) (by decide) (by decide) (by decide)
     (by decide) (by decide) (by decide) (by decide) (by decide) (by decide)
     (by decide) (by decide) (by decide)⟩

/-- Witness for claim C7: replacing [Alice] by [Bob] leaves exactly [Bob]. -/
theorem claim_C7_witness :
    (getSession? demoSt1 demoSid = some demoSess1) ∧
    ∃ s1 st1 s2 st2,
      replaceRoster demoSt1 (some demoOrg) demoSid
        (some [⟨"a@x.com", "Alice"⟩]) = (.ok s1, st1) ∧
      replaceRoster st1 (some demoOrg) demoSid
        (some [⟨"b@x.com", "Bob"⟩]) = (.ok s2, st2) ∧
      getSession? st2 demoSid = some s2 ∧
      s2.students = [(⟨"b@x.com", "Bob"⟩ : Student)].map normStudent :=
  ⟨by decide,
   claim_C7_roster_full_overwrite demoSt1 demoOrg demoSid
     [⟨"a@x.com", "Alice"⟩] [⟨"b@x.com", "Bob"⟩] demoSess1
     (by decide) (by decide) (by decide) (by decide) (by decide)⟩

set_option maxRecDepth 100000 in
set_option maxHeartbeats 4000000 in
/-- Witness for claim C9: a 500-entry roster is accepted and a 501-entry
roster is rejected leaving the store unchanged. -/
theorem claim_C9_witness :
    ((List.replicate 500 (⟨"a@x.com", "Alice"⟩ : Student)).length = 500) ∧
    (∃ s2, replaceRoster demoSt1 (some demoOrg) demoSid
        (some (List.replicate 500 ⟨"a@x.com", "Alice"⟩)) =
        (.ok s2, kvSet demoSt1 (sessionKey demoSid) (.vSession s2)) ∧
      s2.students = (List.replicate 500 (⟨"a@x.com", "Alice"⟩ : Student)).map normStudent) ∧
    ((replaceRoster demoSt1 (some demoOrg) demoSid
        (some (List.replicate 501 ⟨"a@x.com", "Alice"⟩))).1 =
        .error ⟨.invalidArgument,
          "Invalid students array. Each student must have valid email and name."⟩ ∧
      (replaceRoster demoSt1 (some demoOrg) demoSid
        (some (List.replicate 501 ⟨"a@x.com", "Alice"⟩))).2 = demoSt1) := by
  have h := claim_C9_roster_500_boundary demoSt1 demoOrg demoSid
    (List.replicate 500 ⟨"a@x.com", "Alice"⟩) demoSess1
    (by decide) (by decide) (by decide) (by decide) (by decide)
  exact ⟨by decide, h.1, h.2 (List.replicate 501 ⟨"a@x.com", "Alice"⟩) (by decide)⟩

end PromptCrit
